import Mathlib

/-!
Verification of the sboxagent validation subsystem and JSON export framework.

This file shallowly embeds the Python sources:
  - src/validation/validator.py           (ConfigValidator)
  - src/src/sboxmgr/subscription/exporters/json_exporter.py (JSONExportFramework)

Modelling conventions:
  - JSON values are the inductive `Json`.  JSON numbers are modelled as
    integers (`Int`); none of the verified properties involves fractional
    numbers.
  - Python runtime exceptions (KeyError, TypeError, AttributeError) that the
    source code can raise are modelled explicitly: operations that can raise
    return `Except PyErr _`.
  - External libraries are modelled as oracle parameters of the environment
    `ValidatorEnv`: `jsonschema.validate` is the oracle `structuralCheck`
    (it can succeed, report a data violation, report a schema defect, or fail
    unexpectedly, exactly the four branches the source distinguishes), and
    `json.loads` is the oracle `jsonLoads`.  The schema directory contents are
    the fields `schemas` (the preloaded index) and `schemaFiles` (on-disk
    fallback lookups).
  - Python `==` between JSON values is modelled as structural equality; the
    numeric coercions of Python equality (1 == True) are not modelled, and
    the hashability requirement of Python set elements is not modelled.  No
    verified claim depends on either corner.
-/

inductive Json where
  | null : Json
  | bool : Bool → Json
  | num : Int → Json
  | str : String → Json
  | arr : List Json → Json
  | obj : List (String × Json) → Json
deriving Repr

mutual

def Json.beq : Json → Json → Bool
  | .null, .null => true
  | .bool a, .bool b => a == b
  | .num a, .num b => a == b
  | .str a, .str b => a == b
  | .arr a, .arr b => Json.beqList a b
  | .obj a, .obj b => Json.beqPairs a b
  | _, _ => false

def Json.beqList : List Json → List Json → Bool
  | [], [] => true
  | x :: xs, y :: ys => Json.beq x y && Json.beqList xs ys
  | _, _ => false

def Json.beqPairs : List (String × Json) → List (String × Json) → Bool
  | [], [] => true
  | (k, v) :: xs, (l, w) :: ys => k == l && (Json.beq v w && Json.beqPairs xs ys)
  | _, _ => false

end

mutual

theorem Json.eq_of_beq : ∀ {a b : Json}, Json.beq a b = true → a = b
  | .null, .null, _ => rfl
  | .bool _, .bool _, h => by
    simp only [Json.beq, beq_iff_eq] at h; exact congrArg Json.bool h
  | .num _, .num _, h => by
    simp only [Json.beq, beq_iff_eq] at h; exact congrArg Json.num h
  | .str _, .str _, h => by
    simp only [Json.beq, beq_iff_eq] at h; exact congrArg Json.str h
  | .arr _, .arr _, h => congrArg Json.arr (Json.eqList_of_beq h)
  | .obj _, .obj _, h => congrArg Json.obj (Json.eqPairs_of_beq h)

theorem Json.eqList_of_beq : ∀ {a b : List Json}, Json.beqList a b = true → a = b
  | [], [], _ => rfl
  | x :: xs, y :: ys, h => by
    simp only [Json.beqList, Bool.and_eq_true] at h
    exact congrArg₂ List.cons (Json.eq_of_beq h.1) (Json.eqList_of_beq h.2)

theorem Json.eqPairs_of_beq :
    ∀ {a b : List (String × Json)}, Json.beqPairs a b = true → a = b
  | [], [], _ => rfl
  | (k, v) :: xs, (l, w) :: ys, h => by
    simp only [Json.beqPairs, Bool.and_eq_true, beq_iff_eq] at h
    have h1 : (k, v) = (l, w) := by
      rw [h.1, Json.eq_of_beq h.2.1]
    exact congrArg₂ List.cons h1 (Json.eqPairs_of_beq h.2.2)

end

mutual

theorem Json.beq_refl : ∀ a : Json, Json.beq a a = true
  | .null => rfl
  | .bool b => by simp [Json.beq]
  | .num n => by simp [Json.beq]
  | .str s => by simp [Json.beq]
  | .arr xs => Json.beqList_refl xs
  | .obj fs => Json.beqPairs_refl fs

theorem Json.beqList_refl : ∀ a : List Json, Json.beqList a a = true
  | [] => rfl
  | x :: xs => by
    simp only [Json.beqList, Bool.and_eq_true]
    exact ⟨Json.beq_refl x, Json.beqList_refl xs⟩

theorem Json.beqPairs_refl : ∀ a : List (String × Json), Json.beqPairs a a = true
  | [] => rfl
  | (k, v) :: xs => by
    simp only [Json.beqPairs, Bool.and_eq_true, beq_self_eq_true, true_and]
    exact ⟨Json.beq_refl v, Json.beqPairs_refl xs⟩

end

instance : DecidableEq Json := fun a b =>
  if h : Json.beq a b = true then isTrue (Json.eq_of_beq h)
  else isFalse (fun he => h (he ▸ Json.beq_refl b))

/-- Python exceptions relevant to the embedded code. -/
inductive PyErr where
  | typeError : PyErr
  | keyError : String → PyErr
  | attributeError : PyErr
deriving DecidableEq, Repr

/-- Decimal digit character, matching the characters Python prints for digits. -/
def digitChar (d : Nat) : Char := Char.ofNat (48 + d)

/-- Fuel-bounded digit expansion; the fuel only needs to exceed the digit
count, and `natReprChars` passes `n + 1`. -/
def natReprCharsAux : Nat → Nat → List Char
  | 0, _ => []
  | fuel + 1, n =>
    if n < 10 then [digitChar n]
    else natReprCharsAux fuel (n / 10) ++ [digitChar (n % 10)]

/-- Decimal representation of a natural number, as the list of its digit
characters (most significant first).  Models Python `str(n)` for `n ≥ 0`. -/
def natReprChars (n : Nat) : List Char := natReprCharsAux (n + 1) n

/-- Decimal representation of a natural number.  Models Python `str(n)`. -/
def natRepr (n : Nat) : String := String.mk (natReprChars n)

/-- Decimal representation of an integer.  Models Python `str(i)`. -/
def intRepr (i : Int) : String :=
  if i < 0 then "-" ++ natRepr i.natAbs else natRepr i.toNat

/-- Whether the character list `needle` occurs contiguously inside `l`.
Models the Python substring test `needle in l` for strings. -/
def listIsPrefixOf : List Char → List Char → Bool
  | [], _ => true
  | c :: cs, l =>
    match l with
    | [] => false
    | d :: ds => (c == d) && listIsPrefixOf cs ds

def listInfixOf (needle : List Char) : List Char → Bool
  | [] => listIsPrefixOf needle []
  | b :: t => listIsPrefixOf needle (b :: t) || listInfixOf needle t

/-- Python truthiness of a JSON value (`bool(x)`): `None`, `False`, `0`,
the empty string, the empty list and the empty dict are falsy. -/
def truthy : Json → Bool
  | Json.null => false
  | Json.bool b => b
  | Json.num n => n != 0
  | Json.str s => !s.isEmpty
  | Json.arr xs => !xs.isEmpty
  | Json.obj fs => !fs.isEmpty

/-- Python membership `k in x`: key lookup for dicts, element equality for
lists, substring test for strings, TypeError otherwise. -/
def pyIn (k : String) : Json → Except PyErr Bool
  | Json.obj fs => Except.ok (fs.any (fun q => q.1 == k))
  | Json.arr xs => Except.ok (xs.any (fun x => x == Json.str k))
  | Json.str s => Except.ok (listInfixOf k.data s.data)
  | _ => Except.error PyErr.typeError

/-- Python subscription `x[k]` with a string key: dict lookup (KeyError when
the key is absent), TypeError on every other type. -/
def getItem (j : Json) (k : String) : Except PyErr Json :=
  match j with
  | Json.obj fs =>
    match fs.find? (fun q => q.1 == k) with
    | some q => Except.ok q.2
    | none => Except.error (PyErr.keyError k)
  | _ => Except.error PyErr.typeError

/-- Pure dict lookup used to state properties about objects. -/
def objLookup (j : Json) (k : String) : Option Json :=
  match j with
  | Json.obj fs => (fs.find? (fun q => q.1 == k)).map (fun q => q.2)
  | _ => none

/-- Python `x.get(k, d)`: defaulted dict lookup; AttributeError when `x` is
not a dict. -/
def dictGet (j : Json) (k : String) (d : Json) : Except PyErr Json :=
  match j with
  | Json.obj fs => Except.ok (((fs.find? (fun q => q.1 == k)).map (fun q => q.2)).getD d)
  | _ => Except.error PyErr.attributeError

/-- Python iteration over a value: lists yield their elements, dicts their
keys, strings their one-character substrings; other values raise TypeError. -/
def pyIter : Json → Except PyErr (List Json)
  | Json.arr xs => Except.ok xs
  | Json.obj fs => Except.ok (fs.map (fun q => Json.str q.1))
  | Json.str s => Except.ok (s.data.map (fun c => Json.str (String.mk [c])))
  | _ => Except.error PyErr.typeError

/-- Python `len(x)` for sized values; TypeError otherwise. -/
def pyLen : Json → Except PyErr Int
  | Json.arr xs => Except.ok xs.length
  | Json.obj fs => Except.ok fs.length
  | Json.str s => Except.ok s.length
  | _ => Except.error PyErr.typeError

/-- Python comparison `a <= x` with `a` an integer literal: defined for
numbers and booleans (booleans are the integers 0 and 1), TypeError
otherwise. -/
def pyLeIntJson (a : Int) : Json → Except PyErr Bool
  | Json.num n => Except.ok (decide (a ≤ n))
  | Json.bool b => Except.ok (decide (a ≤ (if b then (1 : Int) else 0)))
  | _ => Except.error PyErr.typeError

/-- Python comparison `x <= b` with `b` an integer literal. -/
def pyLeJsonInt (b : Int) : Json → Except PyErr Bool
  | Json.num n => Except.ok (decide (n ≤ b))
  | Json.bool v => Except.ok (decide ((if v then (1 : Int) else 0) ≤ b))
  | _ => Except.error PyErr.typeError

/-- Python chained comparison `1 <= port <= 65535`: the first comparison is
evaluated first; when it is false the second is not evaluated. -/
def portInRange (port : Json) : Except PyErr Bool := do
  let b1 ← pyLeIntJson 1 port
  if b1 then pyLeJsonInt 65535 port else pure false

mutual

/-- Python `str(x)` for JSON values as interpolated into f-strings.  For
container values Python falls back to `repr`; the embedding prints
containers in Python repr style assuming string contents free of quote
characters (no verified claim evaluates a container repr). -/
def pyStr : Json → String
  | Json.str s => s
  | j => pyRepr j

def pyRepr : Json → String
  | Json.null => "None"
  | Json.bool true => "True"
  | Json.bool false => "False"
  | Json.num n => intRepr n
  | Json.str s => "\x27" ++ s ++ "\x27"
  | Json.arr xs => "[" ++ pyReprList xs ++ "]"
  | Json.obj fs => "\x7b" ++ pyReprPairs fs ++ "\x7d"

def pyReprList : List Json → String
  | [] => ""
  | [x] => pyRepr x
  | x :: y :: t => pyRepr x ++ ", " ++ pyReprList (y :: t)

def pyReprPairs : List (String × Json) → String
  | [] => ""
  | [(k, v)] => "\x27" ++ k ++ "\x27: " ++ pyRepr v
  | (k, v) :: q :: t => "\x27" ++ k ++ "\x27: " ++ pyRepr v ++ ", " ++ pyReprPairs (q :: t)

end

/-! ## The validator (src/validation/validator.py) -/

/-- Outcome of the external `jsonschema.validate` call, one constructor per
branch the source distinguishes (success, `ValidationError`, `SchemaError`,
any other exception). -/
inductive StructOutcome where
  | ok : StructOutcome
  | validationError : String → StructOutcome
  | schemaError : String → StructOutcome
  | unexpectedError : String → StructOutcome
deriving DecidableEq, Repr

/-- The validator input: a raw text blob or an already parsed JSON value. -/
inductive ConfigData where
  | text : String → ConfigData
  | json : Json → ConfigData

/-- Process environment of a `ConfigValidator` instance: the preloaded schema
index `self.schemas` (keyed by schema identifier), the on-disk schema files
consulted by the fallback (`none` when the file does not exist,
`some (Except.error _)` when it exists but fails to parse), and the two
external library oracles. -/
structure ValidatorEnv where
  schemas : List (String × Json)
  schemaFiles : String → Option (Except String Json)
  jsonLoads : String → Except String Json
  structuralCheck : Json → Json → StructOutcome

/-- The result dict built by `validate_config`. -/
structure ValidationResult where
  valid : Bool
  errors : List String
  warnings : List String
  client_type : String
deriving DecidableEq, Repr

/-- The `schema_mapping` table of `_get_schema_for_client`. -/
def schema_mapping : List (String × String) :=
  [("sing-box", "https://schemas.subbox.dev/sing-box.schema.json"),
   ("clash", "https://schemas.subbox.dev/clash.schema.json"),
   ("xray", "https://schemas.subbox.dev/xray.schema.json"),
   ("mihomo", "https://schemas.subbox.dev/mihomo.schema.json")]

/-- Python `client_type.replace("-", "_")`. -/
def hyphenToUnderscore (s : String) : String :=
  String.mk (s.data.map (fun c => if c = '-' then '_' else c))

/-- Embeds `ConfigValidator._get_schema_for_client`: consult the identifier
mapping table against the preloaded index first, then fall back to reading
`<client_type with hyphens replaced>.schema.json` from the schema directory;
a missing or unparseable fallback file yields `none`. -/
def get_schema_for_client (env : ValidatorEnv) (client_type : String) : Option Json :=
  let viaId : Option Json :=
    match schema_mapping.find? (fun p => p.1 == client_type) with
    | some p =>
      match env.schemas.find? (fun q => q.1 == p.2) with
      | some q => some q.2
      | none => none
    | none => none
  match viaId with
  | some s => some s
  | none =>
    match env.schemaFiles (hyphenToUnderscore client_type ++ ".schema.json") with
    | some (Except.ok s) => some s
    | some (Except.error _) => none
    | none => none

/-- Embeds the check `"k" not in config or not config["k"]` shared by the
non-empty-outbounds and non-empty-proxies rules. -/
def missingKeyFalsy (k : String) (config : Json) : Except PyErr Bool := do
  let present ← pyIn k config
  if present then do
    let v ← getItem config k
    pure (!truthy v)
  else pure true

/-- Embeds the loop body of the port-range check: for each inbound, when the
port key is present its value must satisfy `1 <= port <= 65535`; the error
message carries the value and the positional index.  `i` is the value of the
`enumerate` counter at the head of the list. -/
def portErrsLoop (portKey : String) (i : Nat) : List Json → Except PyErr (List String)
  | [] => pure []
  | inb :: rest => do
    let hasPort ← pyIn portKey inb
    let head ←
      if hasPort then do
        let port ← getItem inb portKey
        let ok ← portInRange port
        if ok then pure ([] : List String)
        else pure ["Invalid port " ++ pyStr port ++ " in inbound " ++ natRepr i]
      else pure ([] : List String)
    let tail ← portErrsLoop portKey (i + 1) rest
    pure (head ++ tail)

/-- Embeds the `if "inbounds" in config: for i, inbound in enumerate(...)`
port-range check shared (up to the port key) by the sing-box and xray rules. -/
def inboundPortErrors (portKey : String) (config : Json) : Except PyErr (List String) := do
  let hasInbounds ← pyIn "inbounds" config
  if hasInbounds then do
    let v ← getItem config "inbounds"
    let items ← pyIter v
    portErrsLoop portKey 0 items
  else pure []

/-- Embeds `ConfigValidator._validate_singbox_semantics`. -/
def validate_singbox_semantics (config : Json) : Except PyErr (List String) := do
  let missingOut ← missingKeyFalsy "outbounds" config
  let portErrs ← inboundPortErrors "listen_port" config
  pure ((if missingOut then ["sing-box configuration must have at least one outbound"] else [])
    ++ portErrs)

/-- Embeds `ConfigValidator._validate_xray_semantics`: identical to the
sing-box rule except for the port key (`port`) and the client name in the
missing-outbounds message. -/
def validate_xray_semantics (config : Json) : Except PyErr (List String) := do
  let missingOut ← missingKeyFalsy "outbounds" config
  let portErrs ← inboundPortErrors "port" config
  pure ((if missingOut then ["xray configuration must have at least one outbound"] else [])
    ++ portErrs)

/-- Embeds the set comprehension `{p["name"] for p in ...}` (as the list of
name values in document order; only membership is ever used). -/
def namesOf : List Json → Except PyErr (List Json)
  | [] => pure []
  | p :: ps => do
    let n ← getItem p "name"
    let rest ← namesOf ps
    pure (n :: rest)

/-- The undefined-proxy message
`f"Proxy group \x27...\x27 references undefined proxy \x27...\x27"`. -/
def undefMsg (gname m : Json) : String :=
  "Proxy group \x27" ++
    (pyStr gname ++ ("\x27 references undefined proxy \x27" ++ (pyStr m ++ "\x27")))

/-- Embeds the inner `for proxy in group.get("proxies", [])` loop: one error
per member not found among the proxy names; the group name is only read
(KeyError possible) when an undefined member is found. -/
def memberErrors (names : List Json) (g : Json) : List Json → Except PyErr (List String)
  | [] => pure []
  | m :: ms => do
    if m ∈ names then memberErrors names g ms
    else do
      let gname ← getItem g "name"
      let rest ← memberErrors names g ms
      pure (undefMsg gname m :: rest)

/-- Embeds the outer `for group in config["proxy-groups"]` loop. -/
def groupErrors (names : List Json) : List Json → Except PyErr (List String)
  | [] => pure []
  | g :: gs => do
    let members ← dictGet g "proxies" (Json.arr [])
    let mlist ← pyIter members
    let errs ← memberErrors names g mlist
    let rest ← groupErrors names gs
    pure (errs ++ rest)

/-- Embeds the proxy-group reference check `if "proxy-groups" in config: ...`
whose code is textually identical in the clash and mihomo rules. -/
def proxyGroupRefErrors (config : Json) : Except PyErr (List String) := do
  let hasGroups ← pyIn "proxy-groups" config
  if hasGroups then do
    let pval ← dictGet config "proxies" (Json.arr [])
    let plist ← pyIter pval
    let names ← namesOf plist
    let gval ← getItem config "proxy-groups"
    let glist ← pyIter gval
    groupErrors names glist
  else pure []

/-- Embeds `ConfigValidator._validate_clash_semantics`. -/
def validate_clash_semantics (config : Json) : Except PyErr (List String) := do
  let missing ← missingKeyFalsy "proxies" config
  let gerrs ← proxyGroupRefErrors config
  pure ((if missing then ["clash configuration must have at least one proxy"] else [])
    ++ gerrs)

/-- Embeds `ConfigValidator._validate_mihomo_semantics`, whose body is the
clash rule with `mihomo` in the missing-proxies message. -/
def validate_mihomo_semantics (config : Json) : Except PyErr (List String) := do
  let missing ← missingKeyFalsy "proxies" config
  let gerrs ← proxyGroupRefErrors config
  pure ((if missing then ["mihomo configuration must have at least one proxy"] else [])
    ++ gerrs)

/-- Embeds `ConfigValidator._validate_semantics`: dispatch on the client-type
string; unknown client types yield no semantic errors. -/
def validate_semantics (config : Json) (client_type : String) : Except PyErr (List String) :=
  if client_type = "sing-box" then validate_singbox_semantics config
  else if client_type = "clash" then validate_clash_semantics config
  else if client_type = "xray" then validate_xray_semantics config
  else if client_type = "mihomo" then validate_mihomo_semantics config
  else pure []

/-- Embeds the JSON-parsing step of `validate_config` (text input only). -/
def parse_config_data (env : ValidatorEnv) : ConfigData → Except String Json
  | ConfigData.text s =>
    match env.jsonLoads s with
    | Except.error m => Except.error ("Invalid JSON: " ++ m)
    | Except.ok j => Except.ok j
  | ConfigData.json j => Except.ok j

/-- The `valid` flag and structural error list produced by the
`try: validate(...)` block of `validate_config`: success sets the flag, each
exception class appends one message with its own prefix. -/
def structural_result : StructOutcome → Bool × List String
  | StructOutcome.ok => (true, [])
  | StructOutcome.validationError m => (false, ["Validation error: " ++ m])
  | StructOutcome.schemaError m => (false, ["Schema error: " ++ m])
  | StructOutcome.unexpectedError m => (false, ["Unexpected error: " ++ m])

/-- Embeds `ConfigValidator.validate_config`.  Note the source behaviour
being modelled precisely: the `valid` flag is taken from the structural step
alone and is not revisited after the semantic errors are appended, and the
semantic step runs outside the `try` block, so a semantic exception
propagates out of the call (modelled by `Except.error`). -/
def validate_config (env : ValidatorEnv) (config_data : ConfigData) (client_type : String) :
    Except PyErr ValidationResult :=
  match parse_config_data env config_data with
  | Except.error msg => Except.ok ⟨false, [msg], [], client_type⟩
  | Except.ok config =>
    match get_schema_for_client env client_type with
    | none =>
      Except.ok ⟨false, ["No schema found for client type: " ++ client_type], [], client_type⟩
    | some schema =>
      if truthy schema then
        let vs := structural_result (env.structuralCheck schema config)
        match validate_semantics config client_type with
        | Except.error e => Except.error e
        | Except.ok semErrs => Except.ok ⟨vs.1, vs.2 ++ semErrs, [], client_type⟩
      else
        Except.ok ⟨false, ["No schema found for client type: " ++ client_type], [], client_type⟩

/-! ## The JSON export framework (json_exporter.py) -/

/-- A parsed proxy-server record.  The class itself lives in
`sboxmgr.subscription.models` (outside the provided sources); the fields
are exactly the attributes `json_exporter.py` reads, with the `getattr`
defaults (`alter_id` 0, `tls` False, `network` "tcp") represented as
ordinary fields. -/
structure ParsedServer where
  name : String
  protocol : String
  address : String
  port : Int
  uuid : String
  security : String
  password : String
  alter_id : Int
  tls : Bool
  network : String
deriving DecidableEq, Repr

/-- Embeds `JSONExportFramework._convert_to_clash_proxy`: dict literal per
supported protocol, `None` (here `none`) otherwise. -/
def convert_to_clash_proxy (server : ParsedServer) (name : String) : Option Json :=
  if server.protocol = "vmess" then
    some (Json.obj
      [("name", Json.str name), ("type", Json.str "vmess"),
       ("server", Json.str server.address), ("port", Json.num server.port),
       ("uuid", Json.str server.uuid), ("alterId", Json.num server.alter_id),
       ("cipher", Json.str "auto"), ("tls", Json.bool server.tls),
       ("network", Json.str server.network)])
  else if server.protocol = "ss" then
    some (Json.obj
      [("name", Json.str name), ("type", Json.str "ss"),
       ("server", Json.str server.address), ("port", Json.num server.port),
       ("cipher", Json.str server.security), ("password", Json.str server.password)])
  else if server.protocol = "trojan" then
    some (Json.obj
      [("name", Json.str name), ("type", Json.str "trojan"),
       ("server", Json.str server.address), ("port", Json.num server.port),
       ("password", Json.str server.password), ("tls", Json.bool true)])
  else none

/-- Embeds the `for i, server in enumerate(servers)` proxy-building loop of
`_generate_clash_config`: convert each server under the name `server-i`,
skipping servers whose protocol is unsupported.  `i` is the enumerate
counter at the head of the list. -/
def clashProxiesFrom (i : Nat) : List ParsedServer → List Json
  | [] => []
  | s :: ss =>
    match convert_to_clash_proxy s ("server-" ++ natRepr i) with
    | some p => p :: clashProxiesFrom (i + 1) ss
    | none => clashProxiesFrom (i + 1) ss

def clashProxies (servers : List ParsedServer) : List Json := clashProxiesFrom 0 servers

/-- The name value of a generated proxy dict (`p["name"]`; every dict built
by `_convert_to_clash_proxy` carries the key, so the default is never
reached on generated proxies). -/
def proxyNameVal (p : Json) : Json := (objLookup p "name").getD Json.null

/-- Embeds `JSONExportFramework._generate_clash_config` (also used verbatim
for mihomo by `_generate_mihomo_config`).  The `options` argument is unused
by the source. -/
def generate_clash_config (servers : List ParsedServer) (_options : Option Json) : Json :=
  let proxies := clashProxies servers
  let groups : List Json :=
    if proxies.isEmpty then []
    else
      [Json.obj
        [("name", Json.str "Proxy"), ("type", Json.str "select"),
         ("proxies", Json.arr (proxies.map proxyNameVal))]]
  Json.obj
    [("port", Json.num 7890), ("socks-port", Json.num 7891),
     ("mode", Json.str "rule"), ("log-level", Json.str "info"),
     ("external-controller", Json.str "127.0.0.1:9090"),
     ("proxies", Json.arr proxies), ("proxy-groups", Json.arr groups),
     ("rules", Json.arr
       [Json.str "DOMAIN-SUFFIX,google.com,Proxy", Json.str "GEOIP,CN,DIRECT",
        Json.str "MATCH,Proxy"])]

/-- Embeds the `excluded_count` block of
`JSONExportFramework._generate_metadata`:
`if options and "exclude_servers" in options: excluded_count = len(...)`.
`len` of a non-sized value raises TypeError, which propagates (the call is
not guarded in the source). -/
def excludedCount : Option Json → Except PyErr Int
  | none => pure 0
  | some o =>
    if truthy o then do
      let present ← pyIn "exclude_servers" o
      if present then do
        let v ← getItem o "exclude_servers"
        pyLen v
      else pure 0
    else pure 0

/-- Embeds `JSONExportFramework._generate_metadata`. -/
def generate_metadata (servers : List ParsedServer) (subscription_url : String)
    (options : Option Json) : Except PyErr Json := do
  let excluded_count : Int ← excludedCount options
  pure (Json.obj
    [("source", Json.str subscription_url),
     ("generator", Json.str "sboxmgr-1.5.0"),
     ("checksum", Json.str ""),
     ("subscription_info", Json.obj
       [("total_servers", Json.num (servers.length + excluded_count)),
        ("filtered_servers", Json.num servers.length),
        ("excluded_servers", Json.num excluded_count)])])

/-! ## The checksum (json_exporter.py `_calculate_checksum`)

`_calculate_checksum` is
`sha256(json.dumps(config, sort_keys=True, separators=(",", ":")).encode("utf-8")).hexdigest()`.
The embedding first sorts every object's keys recursively (`canonical`, the
effect of `sort_keys=True`), serializes without extraneous whitespace
(`dumps`, the effect of `separators=(",", ":")` together with the default
`ensure_ascii=True` string escaping), encodes to UTF-8 bytes, and hashes
with SHA-256 (FIPS 180-4, implemented below over `Nat` words reduced
modulo 2^32). -/

/-- Key order used by Python `sorted` on dict items: compare keys. -/
def keyLe (p q : String × Json) : Prop := p.1 ≤ q.1

instance : DecidableRel keyLe := fun p q => inferInstanceAs (Decidable (p.1 ≤ q.1))

instance : IsTotal (String × Json) keyLe := ⟨fun p q => le_total p.1 q.1⟩

instance : IsTrans (String × Json) keyLe := ⟨fun _ _ _ h1 h2 => le_trans h1 h2⟩

/-- Strict key order, used to show sorting a permutation is unambiguous when
the keys are distinct. -/
def keyLt (p q : String × Json) : Prop := p.1 < q.1

instance : IsAntisymm (String × Json) keyLt :=
  ⟨fun _ _ h1 h2 => absurd (lt_trans h1 h2) (lt_irrefl _)⟩

/-- Sorting of dict items by key (Python `sorted(d.items())` as performed by
`json.dumps(..., sort_keys=True)`). -/
def sortPairs (fs : List (String × Json)) : List (String × Json) :=
  List.insertionSort keyLe fs

mutual

/-- Recursively sort every object's fields by key: the canonical form whose
plain serialization equals `json.dumps(..., sort_keys=True)` of the
original. -/
def canonical : Json → Json
  | Json.obj fs => Json.obj (sortPairs (canonicalPairs fs))
  | Json.arr xs => Json.arr (canonicalList xs)
  | j => j

def canonicalList : List Json → List Json
  | [] => []
  | x :: xs => canonical x :: canonicalList xs

def canonicalPairs : List (String × Json) → List (String × Json)
  | [] => []
  | (k, v) :: fs => (k, canonical v) :: canonicalPairs fs

end

/-- Four lowercase hex digits (Python `\uXXXX` escape payload). -/
def hexDigit (n : Nat) : Char :=
  if n < 10 then Char.ofNat (48 + n) else Char.ofNat (87 + n)

def hex4 (n : Nat) : String :=
  String.mk [hexDigit (n / 4096 % 16), hexDigit (n / 256 % 16),
             hexDigit (n / 16 % 16), hexDigit (n % 16)]

/-- JSON string escaping as performed by `json.dumps` with the default
`ensure_ascii=True`: the two mandatory escapes, the five short control
escapes, `\uXXXX` for remaining control characters and for every
non-ASCII character (characters beyond the BMP become surrogate pairs). -/
def escapeChar (c : Char) : String :=
  let n := c.toNat
  if c = '"' then "\\\""
  else if c = '\\' then "\\\\"
  else if c = '\n' then "\\n"
  else if c = '\t' then "\\t"
  else if c = '\r' then "\\r"
  else if n = 8 then "\\b"
  else if n = 12 then "\\f"
  else if n < 32 then "\\u" ++ hex4 n
  else if n < 127 then String.mk [c]
  else if n < 65536 then "\\u" ++ hex4 n
  else
    "\\u" ++ hex4 (55296 + (n - 65536) / 1024) ++ "\\u" ++ hex4 (56320 + (n - 65536) % 1024)

def encodeString (s : String) : String :=
  "\"" ++ String.join (s.data.map escapeChar) ++ "\""

mutual

/-- Plain JSON serialization with separators `(",", ":")` and no added
whitespace; applied to `canonical` output it equals
`json.dumps(config, sort_keys=True, separators=(",", ":"))`. -/
def dumps : Json → String
  | Json.null => "null"
  | Json.bool true => "true"
  | Json.bool false => "false"
  | Json.num n => intRepr n
  | Json.str s => encodeString s
  | Json.arr xs => "[" ++ dumpsList xs ++ "]"
  | Json.obj fs => "\x7b" ++ dumpsPairs fs ++ "\x7d"

def dumpsList : List Json → String
  | [] => ""
  | [x] => dumps x
  | x :: y :: t => dumps x ++ "," ++ dumpsList (y :: t)

def dumpsPairs : List (String × Json) → String
  | [] => ""
  | [(k, v)] => encodeString k ++ ":" ++ dumps v
  | (k, v) :: q :: t => encodeString k ++ ":" ++ dumps v ++ "," ++ dumpsPairs (q :: t)

end

/-- UTF-8 encoding of one code point (Python `str.encode("utf-8")`). -/
def utf8Char (n : Nat) : List Nat :=
  if n < 128 then [n]
  else if n < 2048 then [192 + n / 64, 128 + n % 64]
  else if n < 65536 then [224 + n / 4096, 128 + n / 64 % 64, 128 + n % 64]
  else [240 + n / 262144, 128 + n / 4096 % 64, 128 + n / 64 % 64, 128 + n % 64]

def utf8Bytes (s : String) : List Nat := (s.data.map (fun c => utf8Char c.toNat)).flatten

/-- Reduction modulo 2^32 (32-bit word arithmetic). -/
def w32 (n : Nat) : Nat := n % 4294967296

/-- Right rotation of a 32-bit word by `n` bits. -/
def rotr (n x : Nat) : Nat := w32 (x / 2 ^ n + x % 2 ^ n * 2 ^ (32 - n))

/-- Logical right shift. -/
def shr (n x : Nat) : Nat := x / 2 ^ n

def shaCh (x y z : Nat) : Nat := Nat.xor (Nat.land x y) (Nat.land (Nat.xor x 4294967295) z)

def shaMaj (x y z : Nat) : Nat :=
  Nat.xor (Nat.xor (Nat.land x y) (Nat.land x z)) (Nat.land y z)

def bigSigma0 (x : Nat) : Nat := Nat.xor (Nat.xor (rotr 2 x) (rotr 13 x)) (rotr 22 x)

def bigSigma1 (x : Nat) : Nat := Nat.xor (Nat.xor (rotr 6 x) (rotr 11 x)) (rotr 25 x)

def smallSigma0 (x : Nat) : Nat := Nat.xor (Nat.xor (rotr 7 x) (rotr 18 x)) (shr 3 x)

def smallSigma1 (x : Nat) : Nat := Nat.xor (Nat.xor (rotr 17 x) (rotr 19 x)) (shr 10 x)

/-- The SHA-256 round constants. -/
def shaK : List Nat :=
  [1116352408, 1899447441, 3049323471, 3921009573, 961987163, 1508970993, 2453635748, 2870763221,
   3624381080, 310598401, 607225278, 1426881987, 1925078388, 2162078206, 2614888103, 3248222580,
   3835390401, 4022224774, 264347078, 604807628, 770255983, 1249150122, 1555081692, 1996064986,
   2554220882, 2821834349, 2952996808, 3210313671, 3336571891, 3584528711, 113926993, 338241895,
   666307205, 773529912, 1294757372, 1396182291, 1695183700, 1986661051, 2177026350, 2456956037,
   2730485921, 2820302411, 3259730800, 3345764771, 3516065817, 3600352804, 4094571909, 275423344,
   430227734, 506948616, 659060556, 883997877, 958139571, 1322822218, 1537002063, 1747873779,
   1955562222, 2024104815, 2227730452, 2361852424, 2428436474, 2756734187, 3204031479, 3329325298]

/-- The eight working variables of the compression function. -/
structure Sha256State where
  a : Nat
  b : Nat
  c : Nat
  d : Nat
  e : Nat
  f : Nat
  g : Nat
  h : Nat

/-- The SHA-256 initial hash value. -/
def shaInit : Sha256State :=
  ⟨1779033703, 3144134277, 1013904242, 2773480762, 1359893119, 2600822924, 528734635, 1541459225⟩

/-- SHA-256 message padding: append `0x80`, zeros to 56 mod 64, and the
bit length as 8 big-endian bytes. -/
def padMessage (msg : List Nat) : List Nat :=
  let L := msg.length
  let k := (119 - L % 64) % 64
  let bits := 8 * L
  msg ++ [128] ++ List.replicate k 0 ++
    [bits / 2 ^ 56 % 256, bits / 2 ^ 48 % 256, bits / 2 ^ 40 % 256, bits / 2 ^ 32 % 256,
     bits / 2 ^ 24 % 256, bits / 2 ^ 16 % 256, bits / 2 ^ 8 % 256, bits % 256]

/-- Split a byte list into 64-byte chunks. -/
def chunks64 (l : List Nat) : List (List Nat) :=
  if _h : l = [] then [] else l.take 64 :: chunks64 (l.drop 64)
termination_by l.length
decreasing_by
  have hpos : 0 < l.length := List.length_pos.mpr _h
  simp only [List.length_drop]
  omega

/-- Combine 4 bytes big-endian into 32-bit words. -/
def words32BE : List Nat → List Nat
  | b0 :: b1 :: b2 :: b3 :: rest =>
    (b0 * 16777216 + b1 * 65536 + b2 * 256 + b3) :: words32BE rest
  | _ => []

/-- One step of the message-schedule extension. -/
def scheduleStep (ws : List Nat) : List Nat :=
  let n := ws.length
  ws ++ [w32 (smallSigma1 (ws.getD (n - 2) 0) + ws.getD (n - 7) 0 +
              smallSigma0 (ws.getD (n - 15) 0) + ws.getD (n - 16) 0)]

/-- Extend the 16 chunk words to the 64-entry message schedule. -/
def scheduleAll (ws16 : List Nat) : List Nat :=
  (List.range 48).foldl (fun ws _ => scheduleStep ws) ws16

/-- One round of the compression function. -/
def compressStep (st : Sha256State) (kw : Nat × Nat) : Sha256State :=
  let t1 := w32 (st.h + bigSigma1 st.e + shaCh st.e st.f st.g + kw.1 + kw.2)
  let t2 := w32 (bigSigma0 st.a + shaMaj st.a st.b st.c)
  ⟨w32 (t1 + t2), st.a, st.b, st.c, w32 (st.d + t1), st.e, st.f, st.g⟩

/-- Process one 64-byte chunk. -/
def processChunk (st : Sha256State) (chunk : List Nat) : Sha256State :=
  let ws := scheduleAll (words32BE chunk)
  let e := (shaK.zip ws).foldl compressStep st
  ⟨w32 (st.a + e.a), w32 (st.b + e.b), w32 (st.c + e.c), w32 (st.d + e.d),
   w32 (st.e + e.e), w32 (st.f + e.f), w32 (st.g + e.g), w32 (st.h + e.h)⟩

/-- Big-endian bytes of one 32-bit word. -/
def wordBytes (w : Nat) : List Nat :=
  [w / 16777216 % 256, w / 65536 % 256, w / 256 % 256, w % 256]

/-- The 32 digest bytes of a final state. -/
def digestBytes (st : Sha256State) : List Nat :=
  wordBytes st.a ++ wordBytes st.b ++ wordBytes st.c ++ wordBytes st.d ++
  wordBytes st.e ++ wordBytes st.f ++ wordBytes st.g ++ wordBytes st.h

/-- SHA-256 of a byte list, as 32 digest bytes. -/
def sha256 (msg : List Nat) : List Nat :=
  digestBytes ((chunks64 (padMessage msg)).foldl processChunk shaInit)

/-- Two lowercase hex digits of one byte (`hexdigest` output format). -/
def byteHex (b : Nat) : String := String.mk [hexDigit (b / 16), hexDigit (b % 16)]

/-- Lowercase hex string of a byte list. -/
def hexOfBytes : List Nat → String
  | [] => ""
  | b :: bs => byteHex b ++ hexOfBytes bs

/-- The serialized canonical form whose hash is the checksum. -/
def checksumPreimage (config_data : Json) : List Nat := utf8Bytes (dumps (canonical config_data))

/-- Embeds `JSONExportFramework._calculate_checksum`: the lowercase
hexadecimal SHA-256 digest of
`json.dumps(config_data, sort_keys=True, separators=(",", ":"))`
encoded as UTF-8. -/
def calculate_checksum (config_data : Json) : String :=
  hexOfBytes (sha256 (checksumPreimage config_data))

/-! ## Basic computation lemmas -/

@[simp] theorem exceptBind_ok {ε α β : Type} (a : α) (f : α → Except ε β) :
    (Except.ok a >>= f : Except ε β) = f a := rfl

@[simp] theorem exceptBind_err {ε α β : Type} (e : ε) (f : α → Except ε β) :
    (Except.error e >>= f : Except ε β) = Except.error e := rfl

@[simp] theorem exceptMap_ok {ε α β : Type} (f : α → β) (a : α) :
    (f <$> (Except.ok a : Except ε α)) = Except.ok (f a) := rfl

@[simp] theorem exceptMap_err {ε α β : Type} (f : α → β) (e : ε) :
    (f <$> (Except.error e : Except ε α)) = Except.error e := rfl

@[simp] theorem exceptPure_eq_ok {ε α : Type} (a : α) :
    (pure a : Except ε α) = Except.ok a := rfl

/-! ## Decimal representation lemmas -/

/-- Value of a digit-character list read back as a decimal number. -/
def digitsVal (l : List Char) : Nat := l.foldl (fun a c => a * 10 + (c.toNat - 48)) 0

theorem digitChar_toNat {d : Nat} (h : d < 10) : (digitChar d).toNat = 48 + d := by
  interval_cases d <;> decide

theorem digitsVal_natReprCharsAux :
    ∀ (fuel n : Nat), n < fuel → digitsVal (natReprCharsAux fuel n) = n := by
  intro fuel
  induction fuel with
  | zero => intro n h; omega
  | succ f ih =>
    intro n h
    rw [natReprCharsAux]
    split
    · rename_i h10
      simp only [digitsVal, List.foldl_cons, List.foldl_nil, Nat.zero_mul, Nat.zero_add]
      rw [digitChar_toNat h10]
      omega
    · rename_i h10
      have hdn : n / 10 < n := Nat.div_lt_self (by omega) (by omega)
      have ih2 := ih (n / 10) (by omega)
      simp only [digitsVal, List.foldl_append, List.foldl_cons, List.foldl_nil] at ih2 ⊢
      rw [ih2, digitChar_toNat (Nat.mod_lt _ (by omega))]
      omega

theorem digitsVal_natReprChars (n : Nat) : digitsVal (natReprChars n) = n :=
  digitsVal_natReprCharsAux (n + 1) n (by omega)

theorem natReprChars_inj {m n : Nat} (h : natReprChars m = natReprChars n) : m = n := by
  have := digitsVal_natReprChars m
  rw [h, digitsVal_natReprChars] at this
  omega

theorem natRepr_inj {m n : Nat} (h : natRepr m = natRepr n) : m = n := by
  apply natReprChars_inj
  exact congrArg String.data h

theorem natReprCharsAux_digit :
    ∀ (fuel n : Nat), ∀ c ∈ natReprCharsAux fuel n, 47 < c.toNat ∧ c.toNat < 58 := by
  intro fuel
  induction fuel with
  | zero => intro n c hc; simp [natReprCharsAux] at hc
  | succ f ih =>
    intro n c hc
    rw [natReprCharsAux] at hc
    split at hc
    · rename_i h
      simp only [List.mem_singleton] at hc
      subst hc
      rw [digitChar_toNat h]
      omega
    · rw [List.mem_append] at hc
      rcases hc with hc | hc
      · exact ih (n / 10) c hc
      · simp only [List.mem_singleton] at hc
        subst hc
        rw [digitChar_toNat (Nat.mod_lt _ (by omega))]
        omega

theorem natReprChars_digit {n : Nat} : ∀ c ∈ natReprChars n, 47 < c.toNat ∧ c.toNat < 58 :=
  natReprCharsAux_digit (n + 1) n

theorem natReprChars_no_space {n : Nat} : ∀ c ∈ natReprChars n, (!(c == ' ')) = true := by
  intro c hc
  have := natReprChars_digit c hc
  simp only [Bool.not_eq_eq_eq_not, Bool.not_true, beq_eq_false_iff_ne, ne_eq]
  intro he
  subst he
  revert this
  decide

theorem intRepr_no_space {i : Int} : ∀ c ∈ (intRepr i).data, (!(c == ' ')) = true := by
  intro c hc
  unfold intRepr at hc
  split at hc
  · rw [String.data_append] at hc
    rcases List.mem_append.mp hc with hm | hm
    · simp only [show ("-" : String).data = ['-'] from rfl, List.mem_singleton] at hm
      subst hm; decide
    · exact natReprChars_no_space c hm
  · exact natReprChars_no_space c hc

/-! ## Message disambiguation lemmas

The port-range message embeds the inbound index after the separator
`" in inbound "`.  Since the interpolated value and index contain no space
characters while the separator ends with one, the index is recoverable as
the maximal space-free suffix, which makes messages for distinct indices
distinct. -/

def nonspace (c : Char) : Bool := !(c == ' ')

theorem takeWhile_append_of_forall {p : Char → Bool} :
    ∀ {l₁ : List Char} (l₂ : List Char), (∀ a ∈ l₁, p a = true) →
      List.takeWhile p (l₁ ++ l₂) = l₁ ++ List.takeWhile p l₂ := by
  intro l₁
  induction l₁ with
  | nil => intro l₂ _; simp
  | cons a t ih =>
    intro l₂ h
    have ha : p a = true := h a (List.mem_cons_self _ _)
    simp only [List.cons_append, List.takeWhile_cons, ha, ite_true]
    rw [ih l₂ (fun x hx => h x (List.mem_cons_of_mem _ hx))]

theorem takeWhile_cons_neg {p : Char → Bool} {b : Char} (l : List Char) (h : p b = false) :
    List.takeWhile p (b :: l) = [] := by
  simp [List.takeWhile_cons, h]

/-- The port-range message text for a port value string and an inbound index. -/
def portMsg (ps : String) (i : Nat) : String :=
  "Invalid port " ++ ps ++ " in inbound " ++ natRepr i

/-- The space-free suffix of the port-range message is the index. -/
theorem portMsg_suffix (ps : String) (i : Nat) :
    List.takeWhile nonspace (portMsg ps i).data.reverse = (natReprChars i).reverse := by
  have hdata : (portMsg ps i).data =
      ("Invalid port ").data ++ ps.data ++ (" in inbound ").data ++ natReprChars i := by
    simp [portMsg, String.data_append, natRepr]
  rw [hdata]
  simp only [List.reverse_append]
  rw [takeWhile_append_of_forall _ (by
    intro a ha
    rw [List.mem_reverse] at ha
    exact natReprChars_no_space a ha)]
  have hsep : ([' ', 'i', 'n', ' ', 'i', 'n', 'b', 'o', 'u', 'n', 'd', ' '] : List Char).reverse
      = ' ' :: ['d', 'n', 'u', 'o', 'b', 'n', 'i', ' ', 'n', 'i', ' '] := by decide
  rw [hsep]
  simp only [List.cons_append]
  rw [takeWhile_cons_neg _ (by decide)]
  simp

theorem portMsg_index_inj {ps qs : String} {i j : Nat}
    (h : portMsg ps i = portMsg qs j) : i = j := by
  have h1 := portMsg_suffix ps i
  have h2 := portMsg_suffix qs j
  rw [h, h2] at h1
  exact (natReprChars_inj (List.reverse_injective h1)).symm

/-- Distinct strings from distinct head characters; used to separate the
three fixed message shapes of the semantic rules. -/
theorem string_ne_of_headD {s t : String} {c d : Char}
    (hs : s.data.headD ' ' = c) (ht : t.data.headD ' ' = d) (hcd : c ≠ d) : s ≠ t := by
  intro h
  apply hcd
  rw [← hs, ← ht, h]

/-! ## Characterization of the port-range rule -/

/-- Shape of an inbound entry on which Python evaluates the port check
without raising: a dict whose port value, when the key is present, is a
number. -/
def inbShapeOk (pk : String) (inb : Json) : Bool :=
  match inb with
  | Json.obj fs =>
    match fs.find? (fun q => q.1 == pk) with
    | some q => match q.2 with | Json.num _ => true | _ => false
    | none => true
  | _ => false

/-- Specification-side description of the port errors: walking the inbound
list in document order with ascending enumerate counter, one message for
each present, out-of-range port value. -/
def portSpecFrom (pk : String) (i : Nat) : List Json → List String
  | [] => []
  | inb :: rest =>
    (match objLookup inb pk with
     | some (Json.num p) => if p < 1 ∨ 65535 < p then [portMsg (intRepr p) i] else []
     | _ => []) ++ portSpecFrom pk (i + 1) rest

theorem portInRange_num (p : Int) :
    portInRange (Json.num p) = Except.ok (decide (1 ≤ p ∧ p ≤ 65535)) := by
  by_cases h1 : (1 : Int) ≤ p <;> by_cases h2 : p ≤ 65535 <;>
    simp [portInRange, pyLeIntJson, pyLeJsonInt, h1, h2]

@[simp] theorem pyStr_num (p : Int) : pyStr (Json.num p) = intRepr p := rfl

theorem portErrsLoop_eq (pk : String) :
    ∀ (i : Nat) (l : List Json), (∀ inb ∈ l, inbShapeOk pk inb = true) →
      portErrsLoop pk i l = Except.ok (portSpecFrom pk i l) := by
  intro i l
  induction l generalizing i with
  | nil => intro _; rfl
  | cons inb rest ih =>
    intro h
    have hinb := h inb (List.mem_cons_self _ _)
    have hrest := ih (i + 1) (fun x hx => h x (List.mem_cons_of_mem _ hx))
    cases inb with
    | obj fs =>
      rw [portErrsLoop]
      simp only [pyIn, exceptBind_ok]
      cases hfind : fs.find? (fun q => q.1 == pk) with
      | none =>
        have hany : (fs.any fun q => q.1 == pk) = false := by
          rw [Bool.eq_false_iff]
          intro hc
          obtain ⟨x, hx, hk⟩ := List.any_eq_true.mp hc
          exact absurd hk (List.find?_eq_none.mp hfind x hx)
        rw [hany]
        simp [hrest, portSpecFrom, objLookup, hfind]
      | some r =>
        obtain ⟨rk, rv⟩ := r
        have hkey := List.find?_some hfind
        have hmem : (rk, rv) ∈ fs := List.mem_of_find?_eq_some hfind
        have hany : (fs.any fun q => q.1 == pk) = true :=
          List.any_eq_true.mpr ⟨(rk, rv), hmem, hkey⟩
        rw [hany]
        simp only [if_true, getItem, hfind, exceptBind_ok]
        cases rv with
        | num p =>
          rw [portInRange_num]
          simp only [exceptBind_ok]
          by_cases hrange : (1 ≤ p ∧ p ≤ 65535)
          · have hout : ¬ (p < 1 ∨ 65535 < p) := by omega
            simp [hrange, hrest, portSpecFrom, objLookup, hfind, hout]
          · have hout : p < 1 ∨ 65535 < p := by omega
            simp [hrange, hrest, portSpecFrom, objLookup, hfind, hout, portMsg]
        | null => simp [inbShapeOk, hfind] at hinb
        | bool b => simp [inbShapeOk, hfind] at hinb
        | str s => simp [inbShapeOk, hfind] at hinb
        | arr xs => simp [inbShapeOk, hfind] at hinb
        | obj gs => simp [inbShapeOk, hfind] at hinb
    | null => simp [inbShapeOk] at hinb
    | bool b => simp [inbShapeOk] at hinb
    | num p => simp [inbShapeOk] at hinb
    | str s => simp [inbShapeOk] at hinb
    | arr xs => simp [inbShapeOk] at hinb

theorem any_key_eq_isSome (fs : List (String × Json)) (k : String) :
    (fs.any fun q => q.1 == k) = (fs.find? (fun q => q.1 == k)).isSome := by
  cases hfind : fs.find? (fun q => q.1 == k) with
  | none =>
    simp only [Option.isSome_none]
    rw [Bool.eq_false_iff]
    intro hc
    obtain ⟨x, hx, hk⟩ := List.any_eq_true.mp hc
    exact absurd hk (List.find?_eq_none.mp hfind x hx)
  | some r =>
    simp only [Option.isSome_some]
    have hkey := List.find?_some hfind
    exact List.any_eq_true.mpr ⟨r, List.mem_of_find?_eq_some hfind, hkey⟩

/-- Pure form of the `"k" not in config or not config["k"]` test on a dict. -/
def missingKeyFalsyPure (k : String) (fs : List (String × Json)) : Bool :=
  match (fs.find? (fun q => q.1 == k)).map (fun q => q.2) with
  | some v => !truthy v
  | none => true

theorem missingKeyFalsy_obj (k : String) (fs : List (String × Json)) :
    missingKeyFalsy k (Json.obj fs) = Except.ok (missingKeyFalsyPure k fs) := by
  unfold missingKeyFalsy missingKeyFalsyPure
  simp only [pyIn, exceptBind_ok, any_key_eq_isSome]
  cases hfind : fs.find? (fun q => q.1 == k) with
  | none => simp
  | some r => simp [getItem, hfind]

theorem inboundPortErrors_obj (pk : String) (fs : List (String × Json)) (inbs : List Json)
    (hin : objLookup (Json.obj fs) "inbounds" = some (Json.arr inbs))
    (hshape : ∀ inb ∈ inbs, inbShapeOk pk inb = true) :
    inboundPortErrors pk (Json.obj fs) = Except.ok (portSpecFrom pk 0 inbs) := by
  simp only [objLookup, Option.map_eq_some'] at hin
  obtain ⟨r, hfind, hr2⟩ := hin
  have hany : (fs.any fun q => q.1 == "inbounds") = true := by
    rw [any_key_eq_isSome, hfind]
    rfl
  unfold inboundPortErrors
  simp only [pyIn, exceptBind_ok, hany, if_true, getItem, hfind, hr2, pyIter, exceptBind_ok]
  exact portErrsLoop_eq pk 0 inbs hshape

theorem inboundPortErrors_absent (pk : String) (fs : List (String × Json))
    (hin : objLookup (Json.obj fs) "inbounds" = none) :
    inboundPortErrors pk (Json.obj fs) = Except.ok [] := by
  simp only [objLookup, Option.map_eq_none'] at hin
  have hany : (fs.any fun q => q.1 == "inbounds") = false := by
    rw [any_key_eq_isSome, hin]
    rfl
  unfold inboundPortErrors
  simp [pyIn, hany]

/-- Characterization of the sing-box semantic rule on well-shaped configs:
the missing-outbounds part (in document order: first) followed by the port
errors in ascending inbound order. -/
theorem validate_singbox_eq (fs : List (String × Json)) (inbs : List Json)
    (hin : objLookup (Json.obj fs) "inbounds" = some (Json.arr inbs))
    (hshape : ∀ inb ∈ inbs, inbShapeOk "listen_port" inb = true) :
    validate_singbox_semantics (Json.obj fs) = Except.ok
      ((if missingKeyFalsyPure "outbounds" fs
        then ["sing-box configuration must have at least one outbound"] else [])
       ++ portSpecFrom "listen_port" 0 inbs) := by
  unfold validate_singbox_semantics
  rw [missingKeyFalsy_obj, inboundPortErrors_obj "listen_port" fs inbs hin hshape]
  simp

/-- Characterization of the xray semantic rule on well-shaped configs. -/
theorem validate_xray_eq (fs : List (String × Json)) (inbs : List Json)
    (hin : objLookup (Json.obj fs) "inbounds" = some (Json.arr inbs))
    (hshape : ∀ inb ∈ inbs, inbShapeOk "port" inb = true) :
    validate_xray_semantics (Json.obj fs) = Except.ok
      ((if missingKeyFalsyPure "outbounds" fs
        then ["xray configuration must have at least one outbound"] else [])
       ++ portSpecFrom "port" 0 inbs) := by
  unfold validate_xray_semantics
  rw [missingKeyFalsy_obj, inboundPortErrors_obj "port" fs inbs hin hshape]
  simp

/-! ## Characterization of the proxy-group reference rule -/

/-- Shape of a proxy-group entry on which Python evaluates the reference
check without raising in every branch: a dict with a `name` key whose
`proxies` value, when present, is a list. -/
def groupShapeOk (g : Json) : Bool :=
  match g with
  | Json.obj fs =>
    (fs.find? (fun q => q.1 == "name")).isSome &&
    (match fs.find? (fun q => q.1 == "proxies") with
     | some q => match q.2 with | Json.arr _ => true | _ => false
     | none => true)
  | _ => false

/-- Shape of a proxies entry the set comprehension can read: a dict with a
`name` key. -/
def hasNameOk (p : Json) : Bool := (objLookup p "name").isSome

/-- The member list `group.get("proxies", [])` of a well-shaped group. -/
def groupMembers (g : Json) : List Json :=
  match objLookup g "proxies" with
  | some (Json.arr ms) => ms
  | _ => []

/-- The name value `group["name"]` of a well-shaped group. -/
def groupNameVal (g : Json) : Json := (objLookup g "name").getD Json.null

/-- Specification-side description of one group's reference errors: the
members absent from the proxy-name list, in member order. -/
def groupSpec (names : List Json) (g : Json) : List String :=
  (groupMembers g).filterMap
    (fun m => if m ∈ names then none else some (undefMsg (groupNameVal g) m))

/-- Specification-side description of the whole reference check: group
order first, member order within each group. -/
def groupsSpec (names : List Json) (gl : List Json) : List String :=
  gl.flatMap (groupSpec names)

theorem namesOf_eq : ∀ (pl : List Json), (∀ p ∈ pl, hasNameOk p = true) →
    namesOf pl = Except.ok (pl.map proxyNameVal) := by
  intro pl
  induction pl with
  | nil => intro _; rfl
  | cons p ps ih =>
    intro h
    have hp := h p (List.mem_cons_self _ _)
    unfold hasNameOk at hp
    rw [Option.isSome_iff_exists] at hp
    obtain ⟨v, hv⟩ := hp
    unfold namesOf
    cases p with
    | obj fs =>
      simp only [objLookup, Option.map_eq_some'] at hv
      obtain ⟨r, hfind, hr2⟩ := hv
      simp only [getItem, hfind, exceptBind_ok, ih (fun x hx => h x (List.mem_cons_of_mem _ hx)),
        exceptBind_ok, exceptMap_ok]
      simp [proxyNameVal, objLookup, hfind, hr2]
    | null | bool b | num n | str s | arr xs => simp [objLookup] at hv

theorem memberErrors_eq (names : List Json) (g : Json)
    (hname : (objLookup g "name").isSome = true) :
    ∀ ms : List Json, memberErrors names g ms = Except.ok
      (ms.filterMap (fun m => if m ∈ names then none else some (undefMsg (groupNameVal g) m))) := by
  intro ms
  induction ms with
  | nil => rfl
  | cons m t ih =>
    rw [Option.isSome_iff_exists] at hname
    obtain ⟨v, hv⟩ := hname
    unfold memberErrors
    by_cases hm : m ∈ names
    · simp [hm, ih]
    · cases g with
      | obj fs =>
        simp only [objLookup, Option.map_eq_some'] at hv
        obtain ⟨r, hfind, hr2⟩ := hv
        simp only [hm, if_false, getItem, hfind, exceptBind_ok, ih, exceptBind_ok, exceptMap_ok]
        simp [hm, groupNameVal, objLookup, hfind, hr2]
      | null | bool b | num n | str s | arr xs => simp [objLookup] at hv

theorem groupErrors_eq (names : List Json) :
    ∀ gl : List Json, (∀ g ∈ gl, groupShapeOk g = true) →
      groupErrors names gl = Except.ok (groupsSpec names gl) := by
  intro gl
  induction gl with
  | nil => intro _; rfl
  | cons g gs ih =>
    intro h
    have hg := h g (List.mem_cons_self _ _)
    cases g with
    | obj fs =>
      unfold groupShapeOk at hg
      rw [Bool.and_eq_true] at hg
      obtain ⟨hname, hproxies⟩ := hg
      unfold groupErrors
      have hmem : dictGet (Json.obj fs) "proxies" (Json.arr []) =
          Except.ok (Json.arr (groupMembers (Json.obj fs))) := by
        simp only [dictGet, groupMembers, objLookup]
        cases hfind : fs.find? (fun q => q.1 == "proxies") with
        | none => rfl
        | some r =>
          rw [hfind] at hproxies
          obtain ⟨rk, rv⟩ := r
          cases rv with
          | arr ms => rfl
          | null => simp at hproxies
          | bool b => simp at hproxies
          | num n => simp at hproxies
          | str s => simp at hproxies
          | obj gs2 => simp at hproxies
      rw [hmem]
      simp only [exceptBind_ok, pyIter, exceptBind_ok]
      rw [memberErrors_eq names (Json.obj fs) (by simpa [objLookup] using hname)]
      simp only [exceptBind_ok, ih (fun x hx => h x (List.mem_cons_of_mem _ hx)), exceptBind_ok,
        exceptMap_ok]
      simp [groupsSpec, groupSpec]
    | null | bool b | num n | str s | arr xs => simp [groupShapeOk] at hg

theorem proxyGroupRefErrors_eq (fs : List (String × Json)) (pl gl : List Json)
    (hpl : (objLookup (Json.obj fs) "proxies").getD (Json.arr []) = Json.arr pl)
    (hgl : objLookup (Json.obj fs) "proxy-groups" = some (Json.arr gl))
    (hnames : ∀ p ∈ pl, hasNameOk p = true)
    (hgroups : ∀ g ∈ gl, groupShapeOk g = true) :
    proxyGroupRefErrors (Json.obj fs) =
      Except.ok (groupsSpec (pl.map proxyNameVal) gl) := by
  simp only [objLookup, Option.map_eq_some'] at hgl
  obtain ⟨r, hfind, hr2⟩ := hgl
  have hany : (fs.any fun q => q.1 == "proxy-groups") = true := by
    rw [any_key_eq_isSome, hfind]
    rfl
  have hdg : dictGet (Json.obj fs) "proxies" (Json.arr []) = Except.ok (Json.arr pl) := by
    simp only [dictGet]
    simp only [objLookup] at hpl
    rw [hpl]
  unfold proxyGroupRefErrors
  simp only [pyIn, exceptBind_ok, hany, if_true, hdg, exceptBind_ok, pyIter, exceptBind_ok,
    namesOf_eq pl hnames, exceptBind_ok, getItem, hfind, hr2, exceptBind_ok]
  exact groupErrors_eq (pl.map proxyNameVal) gl hgroups

theorem proxyGroupRefErrors_absent (fs : List (String × Json))
    (hgl : objLookup (Json.obj fs) "proxy-groups" = none) :
    proxyGroupRefErrors (Json.obj fs) = Except.ok [] := by
  simp only [objLookup, Option.map_eq_none'] at hgl
  have hany : (fs.any fun q => q.1 == "proxy-groups") = false := by
    rw [any_key_eq_isSome, hgl]
    rfl
  unfold proxyGroupRefErrors
  simp [pyIn, hany]

/-- Characterization of the clash semantic rule on well-shaped configs. -/
theorem validate_clash_eq (fs : List (String × Json)) (pl gl : List Json)
    (hpl : (objLookup (Json.obj fs) "proxies").getD (Json.arr []) = Json.arr pl)
    (hgl : objLookup (Json.obj fs) "proxy-groups" = some (Json.arr gl))
    (hnames : ∀ p ∈ pl, hasNameOk p = true)
    (hgroups : ∀ g ∈ gl, groupShapeOk g = true) :
    validate_clash_semantics (Json.obj fs) = Except.ok
      ((if missingKeyFalsyPure "proxies" fs
        then ["clash configuration must have at least one proxy"] else [])
       ++ groupsSpec (pl.map proxyNameVal) gl) := by
  unfold validate_clash_semantics
  rw [missingKeyFalsy_obj, proxyGroupRefErrors_eq fs pl gl hpl hgl hnames hgroups]
  simp

/-- Characterization of the mihomo semantic rule on well-shaped configs. -/
theorem validate_mihomo_eq (fs : List (String × Json)) (pl gl : List Json)
    (hpl : (objLookup (Json.obj fs) "proxies").getD (Json.arr []) = Json.arr pl)
    (hgl : objLookup (Json.obj fs) "proxy-groups" = some (Json.arr gl))
    (hnames : ∀ p ∈ pl, hasNameOk p = true)
    (hgroups : ∀ g ∈ gl, groupShapeOk g = true) :
    validate_mihomo_semantics (Json.obj fs) = Except.ok
      ((if missingKeyFalsyPure "proxies" fs
        then ["mihomo configuration must have at least one proxy"] else [])
       ++ groupsSpec (pl.map proxyNameVal) gl) := by
  unfold validate_mihomo_semantics
  rw [missingKeyFalsy_obj, proxyGroupRefErrors_eq fs pl gl hpl hgl hnames hgroups]
  simp

/-! ## Membership lemmas for the port-range specification -/

theorem portSpecFrom_mem_pos (pk : String) :
    ∀ (l : List Json) (s i : Nat) (p : Int) (hi : i < l.length),
      objLookup (l.get ⟨i, hi⟩) pk = some (Json.num p) → (p < 1 ∨ 65535 < p) →
      portMsg (intRepr p) (s + i) ∈ portSpecFrom pk s l := by
  intro l
  induction l with
  | nil => intro s i p hi; exact absurd hi (by simp)
  | cons inb rest ih =>
    intro s i p hi hlook hout
    cases i with
    | zero =>
      simp only [List.get] at hlook
      simp only [portSpecFrom, Nat.add_zero, hlook, hout, if_true, List.mem_append]
      left
      simp [hout]
    | succ j =>
      have hj : j < rest.length := by simpa using hi
      have := ih (s + 1) j p hj (by simpa using hlook) hout
      simp only [portSpecFrom, List.mem_append]
      right
      have harith : s + 1 + j = s + (j + 1) := by omega
      rwa [harith] at this

theorem portSpecFrom_mem_shape (pk : String) :
    ∀ (l : List Json) (s : Nat) (e : String), e ∈ portSpecFrom pk s l →
      ∃ (j : Nat) (hj : j < l.length) (p : Int),
        objLookup (l.get ⟨j, hj⟩) pk = some (Json.num p) ∧ (p < 1 ∨ 65535 < p) ∧
        e = portMsg (intRepr p) (s + j) := by
  intro l
  induction l with
  | nil => intro s e he; simp [portSpecFrom] at he
  | cons inb rest ih =>
    intro s e he
    rw [portSpecFrom, List.mem_append] at he
    rcases he with he | he
    · refine ⟨0, by simp, ?_⟩
      cases hlook : objLookup inb pk with
      | none => rw [hlook] at he; simp at he
      | some v =>
        cases v with
        | num p =>
          rw [hlook] at he
          by_cases hout : p < 1 ∨ 65535 < p
          · simp only [hout, if_true, List.mem_singleton] at he
            exact ⟨p, by simpa using hlook, hout, by simpa using he⟩
          · simp [hout] at he
        | null | bool b | str s2 | arr xs | obj fs =>
          rw [hlook] at he
          simp at he
    · obtain ⟨j, hj, p, hlook, hout, hef⟩ := ih (s + 1) e he
      refine ⟨j + 1, by simpa using hj, p, by simpa using hlook, hout, ?_⟩
      rw [hef]
      have harith : s + 1 + j = s + (j + 1) := by omega
      rw [harith]

/-! ## Characterization of validate_config -/

theorem validate_config_parse_error {env : ValidatorEnv} {cd : ConfigData} {m : String}
    (ct : String) (h : parse_config_data env cd = Except.error m) :
    validate_config env cd ct = Except.ok ⟨false, [m], [], ct⟩ := by
  unfold validate_config
  rw [h]

theorem validate_config_no_schema {env : ValidatorEnv} {cd : ConfigData} {config : Json}
    (ct : String) (hp : parse_config_data env cd = Except.ok config)
    (hs : get_schema_for_client env ct = none) :
    validate_config env cd ct =
      Except.ok ⟨false, ["No schema found for client type: " ++ ct], [], ct⟩ := by
  unfold validate_config
  rw [hp, hs]

theorem validate_config_falsy_schema {env : ValidatorEnv} {cd : ConfigData} {config : Json}
    {schema : Json} (ct : String) (hp : parse_config_data env cd = Except.ok config)
    (hs : get_schema_for_client env ct = some schema) (ht : truthy schema = false) :
    validate_config env cd ct =
      Except.ok ⟨false, ["No schema found for client type: " ++ ct], [], ct⟩ := by
  unfold validate_config
  rw [hp, hs]
  simp [ht]

theorem validate_config_main {env : ValidatorEnv} {cd : ConfigData} {config : Json}
    {schema : Json} {sem : List String} (ct : String)
    (hp : parse_config_data env cd = Except.ok config)
    (hs : get_schema_for_client env ct = some schema) (ht : truthy schema = true)
    (hsem : validate_semantics config ct = Except.ok sem) :
    validate_config env cd ct = Except.ok
      ⟨(structural_result (env.structuralCheck schema config)).1,
       (structural_result (env.structuralCheck schema config)).2 ++ sem, [], ct⟩ := by
  unfold validate_config
  rw [hp, hs]
  simp [ht, hsem]

theorem validate_config_sem_error {env : ValidatorEnv} {cd : ConfigData} {config : Json}
    {schema : Json} {e : PyErr} (ct : String)
    (hp : parse_config_data env cd = Except.ok config)
    (hs : get_schema_for_client env ct = some schema) (ht : truthy schema = true)
    (hsem : validate_semantics config ct = Except.error e) :
    validate_config env cd ct = Except.error e := by
  unfold validate_config
  rw [hp, hs]
  simp [ht, hsem]

/-- The only abnormal exit of `validate_config` is an exception raised by
the semantic step after a successful parse and schema resolution. -/
theorem validate_config_error_iff (env : ValidatorEnv) (cd : ConfigData) (ct : String)
    (e : PyErr) :
    validate_config env cd ct = Except.error e ↔
      ∃ config schema, parse_config_data env cd = Except.ok config ∧
        get_schema_for_client env ct = some schema ∧ truthy schema = true ∧
        validate_semantics config ct = Except.error e := by
  constructor
  · intro h
    cases hp : parse_config_data env cd with
    | error m => rw [validate_config_parse_error ct hp] at h; exact absurd h (by simp)
    | ok config =>
      cases hs : get_schema_for_client env ct with
      | none => rw [validate_config_no_schema ct hp hs] at h; exact absurd h (by simp)
      | some schema =>
        cases ht : truthy schema with
        | false => rw [validate_config_falsy_schema ct hp hs ht] at h; exact absurd h (by simp)
        | true =>
          cases hsem : validate_semantics config ct with
          | error e2 =>
            rw [validate_config_sem_error ct hp hs ht hsem] at h
            obtain rfl : e2 = e := by injection h
            exact ⟨config, schema, rfl, rfl, ht, hsem⟩
          | ok sem => rw [validate_config_main ct hp hs ht hsem] at h; exact absurd h (by simp)
  · rintro ⟨config, schema, hp, hs, ht, hsem⟩
    exact validate_config_sem_error ct hp hs ht hsem

/-! ## Shapes of the semantic error messages -/

theorem portMsg_headD (ps : String) (i : Nat) : (portMsg ps i).data.headD ' ' = 'I' := rfl

theorem undefMsg_headD (a b : Json) : (undefMsg a b).data.headD ' ' = 'P' := rfl

theorem groupsSpec_shape {names : List Json} {gl : List Json} {e : String}
    (he : e ∈ groupsSpec names gl) : ∃ a b, e = undefMsg a b := by
  rw [groupsSpec, List.mem_flatMap] at he
  obtain ⟨g, _, hg⟩ := he
  rw [groupSpec, List.mem_filterMap] at hg
  obtain ⟨m, _, hm⟩ := hg
  by_cases hmem : m ∈ names
  · simp [hmem] at hm
  · simp only [hmem, if_false, Option.some_inj] at hm
    exact ⟨groupNameVal g, m, hm.symm⟩

theorem groupsSpec_ne_clash_missing {names gl : List Json} {e : String}
    (he : e ∈ groupsSpec names gl) :
    e ≠ "clash configuration must have at least one proxy" := by
  obtain ⟨a, b, rfl⟩ := groupsSpec_shape he
  exact string_ne_of_headD (undefMsg_headD a b) rfl (by decide)

theorem portSpec_ne_singbox_missing {pk : String} {l : List Json} {s : Nat} {e : String}
    (he : e ∈ portSpecFrom pk s l) :
    e ≠ "sing-box configuration must have at least one outbound" := by
  obtain ⟨j, hj, p, _, _, rfl⟩ := portSpecFrom_mem_shape pk l s e he
  exact string_ne_of_headD (portMsg_headD _ _) rfl (by decide)

theorem portSpec_ne_xray_missing {pk : String} {l : List Json} {s : Nat} {e : String}
    (he : e ∈ portSpecFrom pk s l) :
    e ≠ "xray configuration must have at least one outbound" := by
  obtain ⟨j, hj, p, _, _, rfl⟩ := portSpecFrom_mem_shape pk l s e he
  exact string_ne_of_headD (portMsg_headD _ _) rfl (by decide)

/-- The renaming under which the mihomo rule output equals the clash rule
output: the two bodies are textually identical except for the client name in
the missing-proxies message. -/
def renameClashToMihomo (e : String) : String :=
  if e = "clash configuration must have at least one proxy"
  then "mihomo configuration must have at least one proxy" else e

/-- Every string produced by the inner member loop is an undefined-proxy
message, whatever the input shapes. -/
theorem memberErrors_shape (names : List Json) (g : Json) :
    ∀ (ms : List Json) (l : List String), memberErrors names g ms = Except.ok l →
      ∀ e ∈ l, ∃ a b, e = undefMsg a b := by
  intro ms
  induction ms with
  | nil =>
    intro l h e he
    obtain rfl : ([] : List String) = l := by injection h
    simp at he
  | cons m t ih =>
    intro l h e he
    unfold memberErrors at h
    by_cases hm : m ∈ names
    · rw [if_pos hm] at h
      exact ih l h e he
    · rw [if_neg hm] at h
      cases hgn : getItem g "name" with
      | error e2 => rw [hgn] at h; exact absurd h (by simp)
      | ok gname =>
        rw [hgn] at h
        simp only [exceptBind_ok] at h
        cases hrest : memberErrors names g t with
        | error e2 => rw [hrest] at h; exact absurd h (by simp)
        | ok l2 =>
          rw [hrest] at h
          simp only [exceptBind_ok, exceptPure_eq_ok] at h
          obtain rfl : undefMsg gname m :: l2 = l := by injection h
          rcases List.mem_cons.mp he with rfl | he2
          · exact ⟨gname, m, rfl⟩
          · exact ih l2 hrest e he2

theorem groupErrors_shape (names : List Json) :
    ∀ (gl : List Json) (l : List String), groupErrors names gl = Except.ok l →
      ∀ e ∈ l, ∃ a b, e = undefMsg a b := by
  intro gl
  induction gl with
  | nil =>
    intro l h e he
    obtain rfl : ([] : List String) = l := by injection h
    simp at he
  | cons g gs ih =>
    intro l h e he
    unfold groupErrors at h
    cases hmem : dictGet g "proxies" (Json.arr []) with
    | error e2 => rw [hmem] at h; exact absurd h (by simp)
    | ok members =>
      rw [hmem] at h
      simp only [exceptBind_ok] at h
      cases hml : pyIter members with
      | error e2 => rw [hml] at h; exact absurd h (by simp)
      | ok mlist =>
        rw [hml] at h
        simp only [exceptBind_ok] at h
        cases herrs : memberErrors names g mlist with
        | error e2 => rw [herrs] at h; exact absurd h (by simp)
        | ok l1 =>
          rw [herrs] at h
          simp only [exceptBind_ok] at h
          cases hrest : groupErrors names gs with
          | error e2 => rw [hrest] at h; exact absurd h (by simp)
          | ok l2 =>
            rw [hrest] at h
            simp only [exceptBind_ok, exceptPure_eq_ok] at h
            obtain rfl : l1 ++ l2 = l := by injection h
            rcases List.mem_append.mp he with he1 | he2
            · exact memberErrors_shape names g mlist l1 herrs e he1
            · exact ih l2 hrest e he2

theorem proxyGroupRefErrors_shape (config : Json) (l : List String)
    (h : proxyGroupRefErrors config = Except.ok l) :
    ∀ e ∈ l, ∃ a b, e = undefMsg a b := by
  intro e he
  unfold proxyGroupRefErrors at h
  cases hin : pyIn "proxy-groups" config with
  | error e2 => rw [hin] at h; exact absurd h (by simp)
  | ok hasGroups =>
    rw [hin] at h
    simp only [exceptBind_ok] at h
    by_cases hg : hasGroups
    · rw [if_pos hg] at h
      cases h1 : dictGet config "proxies" (Json.arr []) with
      | error e2 => rw [h1] at h; exact absurd h (by simp)
      | ok pval =>
        rw [h1] at h
        simp only [exceptBind_ok] at h
        cases h2 : pyIter pval with
        | error e2 => rw [h2] at h; exact absurd h (by simp)
        | ok plist =>
          rw [h2] at h
          simp only [exceptBind_ok] at h
          cases h3 : namesOf plist with
          | error e2 => rw [h3] at h; exact absurd h (by simp)
          | ok names =>
            rw [h3] at h
            simp only [exceptBind_ok] at h
            cases h4 : getItem config "proxy-groups" with
            | error e2 => rw [h4] at h; exact absurd h (by simp)
            | ok gval =>
              rw [h4] at h
              simp only [exceptBind_ok] at h
              cases h5 : pyIter gval with
              | error e2 => rw [h5] at h; exact absurd h (by simp)
              | ok glist =>
                rw [h5] at h
                simp only [exceptBind_ok] at h
                exact groupErrors_shape names glist l h e he
    · rw [if_neg hg] at h
      obtain rfl : ([] : List String) = l := by injection h
      simp at he

theorem undefMsg_ne_clash_missing (a b : Json) :
    undefMsg a b ≠ "clash configuration must have at least one proxy" :=
  string_ne_of_headD (undefMsg_headD a b) rfl (by decide)

/-- The mihomo semantic rule output is the clash rule output with the
missing-proxies message renamed, on every input; the exceptional outcomes
coincide exactly. -/
theorem mihomo_eq_clash_renamed (config : Json) :
    validate_mihomo_semantics config =
      (validate_clash_semantics config).map (List.map renameClashToMihomo) := by
  unfold validate_mihomo_semantics validate_clash_semantics
  cases hmiss : missingKeyFalsy "proxies" config with
  | error e => rfl
  | ok b =>
    simp only [exceptBind_ok]
    cases hg : proxyGroupRefErrors config with
    | error e => rfl
    | ok l =>
      simp only [exceptBind_ok, exceptPure_eq_ok, Except.map]
      congr 1
      have hl : List.map renameClashToMihomo l = l := by
        have hsh := proxyGroupRefErrors_shape config l hg
        calc List.map renameClashToMihomo l = List.map id l := by
              apply List.map_congr_left
              intro e he
              obtain ⟨x, y, rfl⟩ := hsh e he
              simp only [renameClashToMihomo, id]
              rw [if_neg (undefMsg_ne_clash_missing x y)]
          _ = l := List.map_id l
      rw [List.map_append, hl]
      cases b with
      | true => simp [renameClashToMihomo]
      | false => simp

/-! ## Checksum determinism: sorting objects is permutation-invariant -/

theorem canonicalPairs_eq_map (l : List (String × Json)) :
    canonicalPairs l = l.map (fun p => (p.1, canonical p.2)) := by
  induction l with
  | nil => rfl
  | cons p t ih =>
    obtain ⟨k, v⟩ := p
    simp only [canonicalPairs, ih, List.map_cons]

theorem sortPairs_sorted (l : List (String × Json)) : List.Sorted keyLe (sortPairs l) :=
  List.sorted_insertionSort keyLe l

theorem sortPairs_perm (l : List (String × Json)) : (sortPairs l).Perm l :=
  List.perm_insertionSort keyLe l

theorem sorted_strict_of_nodup {m : List (String × Json)}
    (hs : List.Sorted keyLe m) (hnd : (m.map Prod.fst).Nodup) : List.Sorted keyLt m := by
  rw [List.Sorted] at hs ⊢
  rw [List.Nodup, List.pairwise_map] at hnd
  exact (hs.and hnd).imp (fun h => lt_of_le_of_ne h.1 h.2)

theorem sortPairs_eq_of_perm {l l' : List (String × Json)} (hp : l.Perm l')
    (hnd : (l.map Prod.fst).Nodup) : sortPairs l = sortPairs l' := by
  have hnd' : (l'.map Prod.fst).Nodup := (hp.map Prod.fst).nodup hnd
  have hnds : ((sortPairs l).map Prod.fst).Nodup := ((sortPairs_perm l).map Prod.fst).symm.nodup hnd
  have hnds' : ((sortPairs l').map Prod.fst).Nodup :=
    ((sortPairs_perm l').map Prod.fst).symm.nodup hnd'
  have hperm : (sortPairs l).Perm (sortPairs l') :=
    (sortPairs_perm l).trans (hp.trans (sortPairs_perm l').symm)
  exact List.eq_of_perm_of_sorted hperm
    (sorted_strict_of_nodup (sortPairs_sorted l) hnds)
    (sorted_strict_of_nodup (sortPairs_sorted l') hnds')

theorem canonical_obj_perm {l l' : List (String × Json)} (hp : l.Perm l')
    (hnd : (l.map Prod.fst).Nodup) : canonical (Json.obj l) = canonical (Json.obj l') := by
  show Json.obj (sortPairs (canonicalPairs l)) = Json.obj (sortPairs (canonicalPairs l'))
  congr 1
  apply sortPairs_eq_of_perm
  · rw [canonicalPairs_eq_map, canonicalPairs_eq_map]
    exact hp.map _
  · rw [canonicalPairs_eq_map, List.map_map]
    exact hnd

theorem calculate_checksum_perm {l l' : List (String × Json)} (hp : l.Perm l')
    (hnd : (l.map Prod.fst).Nodup) :
    calculate_checksum (Json.obj l) = calculate_checksum (Json.obj l') := by
  unfold calculate_checksum checksumPreimage
  rw [canonical_obj_perm hp hnd]

/-! ## Shape of the hex digest -/

def hexChars : List Char := "0123456789abcdef".data

theorem hexDigit_mem {n : Nat} (h : n < 16) : hexDigit n ∈ hexChars := by
  interval_cases n <;> decide

theorem wordBytes_lt (w : Nat) : ∀ b ∈ wordBytes w, b < 256 := by
  intro b hb
  simp only [wordBytes, List.mem_cons, List.not_mem_nil, or_false] at hb
  rcases hb with rfl | rfl | rfl | rfl <;> exact Nat.mod_lt _ (by omega)

theorem digestBytes_lt (st : Sha256State) : ∀ b ∈ digestBytes st, b < 256 := by
  intro b hb
  unfold digestBytes at hb
  simp only [List.mem_append] at hb
  rcases hb with ((((((h | h) | h) | h) | h) | h) | h) | h <;> exact wordBytes_lt _ b h

theorem digestBytes_length (st : Sha256State) : (digestBytes st).length = 32 := rfl

theorem sha256_length (msg : List Nat) : (sha256 msg).length = 32 := digestBytes_length _

theorem sha256_lt (msg : List Nat) : ∀ b ∈ sha256 msg, b < 256 := digestBytes_lt _

theorem byteHex_length (b : Nat) : (byteHex b).length = 2 := rfl

theorem hexOfBytes_length (bs : List Nat) : (hexOfBytes bs).length = 2 * bs.length := by
  induction bs with
  | nil => rfl
  | cons b t ih =>
    rw [hexOfBytes, String.length_append, byteHex_length, ih, List.length_cons]
    omega

theorem byteHex_chars {b : Nat} (hb : b < 256) : ∀ c ∈ (byteHex b).data, c ∈ hexChars := by
  intro c hc
  have h1 : b / 16 < 16 := by omega
  have h2 : b % 16 < 16 := Nat.mod_lt _ (by omega)
  have hcc : c = hexDigit (b / 16) ∨ c = hexDigit (b % 16) := by
    simpa [byteHex] using hc
  rcases hcc with rfl | rfl
  · exact hexDigit_mem h1
  · exact hexDigit_mem h2

theorem hexOfBytes_chars {bs : List Nat} (hbs : ∀ b ∈ bs, b < 256) :
    ∀ c ∈ (hexOfBytes bs).data, c ∈ hexChars := by
  induction bs with
  | nil => intro c hc; simp [hexOfBytes] at hc
  | cons b t ih =>
    intro c hc
    rw [hexOfBytes, String.data_append] at hc
    rcases List.mem_append.mp hc with h | h
    · exact byteHex_chars (hbs b (List.mem_cons_self _ _)) c h
    · exact ih (fun x hx => hbs x (List.mem_cons_of_mem _ hx)) c h

theorem calculate_checksum_length (j : Json) : (calculate_checksum j).length = 64 := by
  unfold calculate_checksum
  rw [hexOfBytes_length, sha256_length]

theorem calculate_checksum_chars (j : Json) :
    ∀ c ∈ (calculate_checksum j).data, c ∈ hexChars := by
  unfold calculate_checksum
  exact hexOfBytes_chars (sha256_lt _)

/-! ## SHA-256 digests live in a finite codomain -/

/-- The one-field document used to exhibit a checksum collision. -/
def oneFieldDoc (n : Int) : Json := Json.obj [("v", Json.num n)]

/-- The digest of `oneFieldDoc n`, packaged into the finite type
`Fin 32 → Fin 256`. -/
def digestVec (n : Int) : Fin 32 → Fin 256 := fun i =>
  ⟨(sha256 (checksumPreimage (oneFieldDoc n))).getD i.val 0 % 256, Nat.mod_lt _ (by omega)⟩

theorem digest_eq_of_vec_eq {n m : Int} (h : digestVec n = digestVec m) :
    sha256 (checksumPreimage (oneFieldDoc n)) = sha256 (checksumPreimage (oneFieldDoc m)) := by
  apply List.ext_getElem
  · rw [sha256_length, sha256_length]
  · intro i h1 h2
    have hi : i < 32 := by rwa [sha256_length] at h1
    have hv := congrArg Fin.val (congrFun h ⟨i, hi⟩)
    simp only [digestVec] at hv
    rw [List.getD_eq_getElem _ _ h1, List.getD_eq_getElem _ _ h2] at hv
    have ha := sha256_lt (checksumPreimage (oneFieldDoc n)) _ (List.getElem_mem h1)
    have hb := sha256_lt (checksumPreimage (oneFieldDoc m)) _ (List.getElem_mem h2)
    rwa [Nat.mod_eq_of_lt ha, Nat.mod_eq_of_lt hb] at hv

theorem checksum_collision_exists :
    ∃ n m : Int, n ≠ m ∧
      calculate_checksum (oneFieldDoc n) = calculate_checksum (oneFieldDoc m) := by
  obtain ⟨n, m, hne, heq⟩ := Finite.exists_ne_map_eq_of_infinite digestVec
  exact ⟨n, m, hne, congrArg hexOfBytes (digest_eq_of_vec_eq heq)⟩

/-! ## The claims -/

/-- Environment with truthy schemas for the four supported client types, no
schema files on disk, a failing JSON parser and a structural check that
accepts everything. -/
def envAllOk : ValidatorEnv :=
  ⟨[("https://schemas.subbox.dev/sing-box.schema.json", Json.obj [("type", Json.str "object")]),
    ("https://schemas.subbox.dev/clash.schema.json", Json.obj [("type", Json.str "object")]),
    ("https://schemas.subbox.dev/xray.schema.json", Json.obj [("type", Json.str "object")]),
    ("https://schemas.subbox.dev/mihomo.schema.json", Json.obj [("type", Json.str "object")])],
   fun _ => none,
   fun _ => Except.error "Expecting value: line 1 column 1 (char 0)",
   fun _ _ => StructOutcome.ok⟩

/-- C7: for every text input on which the JSON parser fails, validate_config
returns valid = false with exactly the one structural error describing the
parse failure, no warnings, and the semantic checks are not reached (the
result is total and carries no semantic message). -/
theorem C7_invalid_json_single_error (env : ValidatorEnv) (s : String) (ct m : String)
    (h : env.jsonLoads s = Except.error m) :
    validate_config env (ConfigData.text s) ct =
      Except.ok ⟨false, ["Invalid JSON: " ++ m], [], ct⟩ := by
  apply validate_config_parse_error
  show (match env.jsonLoads s with
        | Except.error m => Except.error ("Invalid JSON: " ++ m)
        | Except.ok j => Except.ok j) = Except.error ("Invalid JSON: " ++ m)
  rw [h]

/-- C7 witness: the parse-failure short-circuit evaluated at a concrete
environment and input. -/
theorem C7_witness :
    validate_config envAllOk (ConfigData.text "invalid json") "sing-box" =
      Except.ok ⟨false, ["Invalid JSON: Expecting value: line 1 column 1 (char 0)"], [],
        "sing-box"⟩ :=
  C7_invalid_json_single_error envAllOk "invalid json" "sing-box" _ rfl

/-- C5 counterexample: the clash and mihomo rules do not yield the same
string sequence on every document; on a document with an empty proxy list
the two missing-proxies messages name different clients. -/
theorem C5_counterexample :
    validate_clash_semantics (Json.obj [("proxies", Json.arr [])]) =
      Except.ok ["clash configuration must have at least one proxy"] ∧
    validate_mihomo_semantics (Json.obj [("proxies", Json.arr [])]) =
      Except.ok ["mihomo configuration must have at least one proxy"] ∧
    (["clash configuration must have at least one proxy"] : List String) ≠
      ["mihomo configuration must have at least one proxy"] := by
  refine ⟨rfl, rfl, ?_⟩
  decide

/-- C5 (amended): the clash and mihomo semantic rules agree on every parsed
document up to the client name inside the missing-proxies message: the
mihomo output is the clash output with that one message renamed, all
undefined-proxy violations (group and member order included) and all
exceptional outcomes being literally identical. -/
theorem C5_mihomo_is_renamed_clash (config : Json) :
    validate_mihomo_semantics config =
      (validate_clash_semantics config).map (List.map renameClashToMihomo) :=
  mihomo_eq_clash_renamed config

/-- C2 counterexample: a proxies entry without a `name` key makes the clash
semantic step raise KeyError, which crosses the validation boundary: the
call has no result value. -/
theorem C2_counterexample :
    validate_config envAllOk
      (ConfigData.json (Json.obj
        [("proxies", Json.arr [Json.obj []]),
         ("proxy-groups", Json.arr [])]))
      "clash" = Except.error (PyErr.keyError "name") := rfl

/-- C2 (amended): the parse step and the structural step never raise (their
failures are converted to error entries), so an abnormal termination of
validate_config happens exactly when the input parsed, a truthy schema was
resolved, and the semantic rule step raised; the raised exception is
returned unchanged. -/
theorem C2_exception_iff_semantic_raise (env : ValidatorEnv) (cd : ConfigData) (ct : String)
    (e : PyErr) :
    validate_config env cd ct = Except.error e ↔
      ∃ config schema, parse_config_data env cd = Except.ok config ∧
        get_schema_for_client env ct = some schema ∧ truthy schema = true ∧
        validate_semantics config ct = Except.error e :=
  validate_config_error_iff env cd ct e

/-- C8 counterexample: it is not true that changing a field value always
changes the checksum: the checksum maps the infinitely many one-field
documents into a finite digest space, so two documents differing only in
the field value share a checksum. -/
theorem C8_counterexample :
    ∃ n m : Int, n ≠ m ∧
      calculate_checksum (oneFieldDoc n) = calculate_checksum (oneFieldDoc m) :=
  checksum_collision_exists

/-- C8 (amended): the checksum is the lowercase hexadecimal SHA-256 digest
of the canonical (sorted-keys, compact-separators) serialization, hence
deterministic: permuting the field order of a document (with distinct keys)
never changes the checksum, and every checksum is a 64-character string of
lowercase hex digits.  (Changing a field value changes the checksum only up
to SHA-256 collisions, which exist by counting.) -/
theorem C8_checksum_deterministic_hex :
    (∀ l l' : List (String × Json), l.Perm l' → (l.map Prod.fst).Nodup →
       calculate_checksum (Json.obj l) = calculate_checksum (Json.obj l')) ∧
    (∀ j : Json, (calculate_checksum j).length = 64 ∧
       ∀ c ∈ (calculate_checksum j).data, c ∈ hexChars) := by
  constructor
  · intro l l' hp hnd
    exact calculate_checksum_perm hp hnd
  · intro j
    exact ⟨calculate_checksum_length j, calculate_checksum_chars j⟩

/-- C8 witness: the determinism conjunct applied to a concrete two-field
document and its field-order permutation. -/
theorem C8_witness :
    calculate_checksum (Json.obj [("a", Json.num 1), ("b", Json.num 2)]) =
      calculate_checksum (Json.obj [("b", Json.num 2), ("a", Json.num 1)]) :=
  C8_checksum_deterministic_hex.1
    [("a", Json.num 1), ("b", Json.num 2)] [("b", Json.num 2), ("a", Json.num 1)]
    (by decide) (by decide)

/-- C1 counterexample: with the clash schema present, truthy and structurally
satisfied, validating `{"proxies": [], "proxy-groups": []}` as clash returns
valid = true together with exactly one error entry about the missing proxy
list — not valid = false as claimed: the flag set by the structural step is
never revisited after semantic errors are appended. -/
theorem C1_counterexample :
    validate_config envAllOk
      (ConfigData.json (Json.obj [("proxies", Json.arr []), ("proxy-groups", Json.arr [])]))
      "clash" =
      Except.ok ⟨true, ["clash configuration must have at least one proxy"], [], "clash"⟩ := rfl

/-- C1 (amended): whenever validate_config returns a result, the valid flag
is true if and only if the input parsed, a truthy schema was resolved and
the structural check succeeded — semantic errors do not reset it. -/
theorem C1_valid_iff_structural (env : ValidatorEnv) (cd : ConfigData) (ct : String)
    (r : ValidationResult) (h : validate_config env cd ct = Except.ok r) :
    r.valid = true ↔
      ∃ config schema, parse_config_data env cd = Except.ok config ∧
        get_schema_for_client env ct = some schema ∧ truthy schema = true ∧
        env.structuralCheck schema config = StructOutcome.ok := by
  cases hp : parse_config_data env cd with
  | error m =>
    rw [validate_config_parse_error ct hp] at h
    obtain rfl : (⟨false, [m], [], ct⟩ : ValidationResult) = r := by injection h
    simp only [show (⟨false, [m], [], ct⟩ : ValidationResult).valid = false from rfl]
    constructor
    · intro hc; exact absurd hc (by simp)
    · rintro ⟨config, schema, hpc, _⟩
      exact absurd hpc (by simp)
  | ok config =>
    cases hs : get_schema_for_client env ct with
    | none =>
      rw [validate_config_no_schema ct hp hs] at h
      obtain rfl : (⟨false, ["No schema found for client type: " ++ ct], [], ct⟩ :
          ValidationResult) = r := by injection h
      constructor
      · intro hc; exact absurd hc (by simp)
      · rintro ⟨config2, schema2, hpc, hsc, _⟩
        exact absurd hsc (by simp)
    | some schema =>
      cases ht : truthy schema with
      | false =>
        rw [validate_config_falsy_schema ct hp hs ht] at h
        obtain rfl : (⟨false, ["No schema found for client type: " ++ ct], [], ct⟩ :
            ValidationResult) = r := by injection h
        constructor
        · intro hc; exact absurd hc (by simp)
        · rintro ⟨config2, schema2, hpc, hsc, htc, _⟩
          obtain rfl : config = config2 := by injection hpc
          obtain rfl : schema = schema2 := by injection hsc
          rw [ht] at htc
          exact absurd htc (by simp)
      | true =>
        cases hsem : validate_semantics config ct with
        | error e =>
          rw [validate_config_sem_error ct hp hs ht hsem] at h
          exact absurd h (by simp)
        | ok sem =>
          rw [validate_config_main ct hp hs ht hsem] at h
          obtain rfl : (⟨(structural_result (env.structuralCheck schema config)).1,
              (structural_result (env.structuralCheck schema config)).2 ++ sem, [], ct⟩ :
              ValidationResult) = r := by injection h
          constructor
          · intro hv
            refine ⟨config, schema, rfl, rfl, ht, ?_⟩
            cases ho : env.structuralCheck schema config with
            | ok => rfl
            | validationError m => rw [ho] at hv; exact absurd hv (by simp [structural_result])
            | schemaError m => rw [ho] at hv; exact absurd hv (by simp [structural_result])
            | unexpectedError m => rw [ho] at hv; exact absurd hv (by simp [structural_result])
          · rintro ⟨config2, schema2, hpc, hsc, htc, hoc⟩
            obtain rfl : config = config2 := by injection hpc
            obtain rfl : schema = schema2 := by injection hsc
            show (structural_result (env.structuralCheck schema config)).1 = true
            rw [hoc]
            rfl

/-- C1 witness: the amended criterion applied at a concrete environment
where the structural check succeeds on a clash document with one proxy. -/
theorem C1_witness :
    (⟨true, [], [], "clash"⟩ : ValidationResult).valid = true := by
  have h := C1_valid_iff_structural envAllOk
    (ConfigData.json (Json.obj [("proxies", Json.arr [Json.obj [("name", Json.str "a")]])]))
    "clash" ⟨true, [], [], "clash"⟩ rfl
  exact h.mpr ⟨Json.obj [("proxies", Json.arr [Json.obj [("name", Json.str "a")]])],
    Json.obj [("type", Json.str "object")], rfl, rfl, rfl, rfl⟩

/-- C3 counterexample: a document that parses as JSON and resolves a truthy
schema, on which the semantic rule set raises instead of contributing
errors to a result list: no result exists, so nothing is appended. -/
theorem C3_counterexample :
    validate_config envAllOk
      (ConfigData.json (Json.obj
        [("outbounds", Json.arr [Json.obj [("tag", Json.str "x")]]),
         ("inbounds", Json.num 5)]))
      "sing-box" = Except.error PyErr.typeError := rfl

/-- C3 (amended): whenever the input parses, a truthy schema resolves, and
the semantic rules complete normally, the semantic errors are appended
after the structural errors whatever the structural outcome was; within the
sing-box rule the errors follow ascending inbound order, and within the
clash rule they follow group order then member order. -/
theorem C3_semantic_append_and_order :
    (∀ (env : ValidatorEnv) (cd : ConfigData) (ct : String) (config schema : Json)
       (sem : List String),
       parse_config_data env cd = Except.ok config →
       get_schema_for_client env ct = some schema → truthy schema = true →
       validate_semantics config ct = Except.ok sem →
       validate_config env cd ct = Except.ok
         ⟨(structural_result (env.structuralCheck schema config)).1,
          (structural_result (env.structuralCheck schema config)).2 ++ sem, [], ct⟩) ∧
    (∀ (fs : List (String × Json)) (inbs : List Json),
       objLookup (Json.obj fs) "inbounds" = some (Json.arr inbs) →
       (∀ inb ∈ inbs, inbShapeOk "listen_port" inb = true) →
       validate_singbox_semantics (Json.obj fs) = Except.ok
         ((if missingKeyFalsyPure "outbounds" fs
           then ["sing-box configuration must have at least one outbound"] else [])
          ++ portSpecFrom "listen_port" 0 inbs)) ∧
    (∀ (fs : List (String × Json)) (pl gl : List Json),
       (objLookup (Json.obj fs) "proxies").getD (Json.arr []) = Json.arr pl →
       objLookup (Json.obj fs) "proxy-groups" = some (Json.arr gl) →
       (∀ p ∈ pl, hasNameOk p = true) → (∀ g ∈ gl, groupShapeOk g = true) →
       validate_clash_semantics (Json.obj fs) = Except.ok
         ((if missingKeyFalsyPure "proxies" fs
           then ["clash configuration must have at least one proxy"] else [])
          ++ groupsSpec (pl.map proxyNameVal) gl)) := by
  refine ⟨?_, ?_, ?_⟩
  · intro env cd ct config schema sem hp hs ht hsem
    exact validate_config_main ct hp hs ht hsem
  · intro fs inbs hin hshape
    exact validate_singbox_eq fs inbs hin hshape
  · intro fs pl gl hpl hgl hnames hgroups
    exact validate_clash_eq fs pl gl hpl hgl hnames hgroups

/-- Environment whose structural check reports a conformance violation on
every document. -/
def envStructFail : ValidatorEnv :=
  ⟨[("https://schemas.subbox.dev/sing-box.schema.json", Json.obj [("type", Json.str "object")]),
    ("https://schemas.subbox.dev/clash.schema.json", Json.obj [("type", Json.str "object")])],
   fun _ => none,
   fun _ => Except.error "Expecting value: line 1 column 1 (char 0)",
   fun _ _ => StructOutcome.validationError "bad"⟩

/-- C3 witness: the three conjuncts of C3 applied at concrete inputs:
a structural violation is followed (not replaced) by the semantic port
error; the sing-box rule lists violating inbounds 0 and 2 in ascending
order; the clash rule reports the group's undefined member. -/
theorem C3_witness :
    (validate_config envStructFail
      (ConfigData.json (Json.obj
        [("outbounds", Json.arr [Json.obj [("tag", Json.str "x")]]),
         ("inbounds", Json.arr [Json.obj [("listen_port", Json.num 70000)]])]))
      "sing-box" = Except.ok
        ⟨false, ["Validation error: bad", "Invalid port 70000 in inbound 0"], [],
         "sing-box"⟩) ∧
    (validate_singbox_semantics (Json.obj
        [("outbounds", Json.arr [Json.obj [("tag", Json.str "x")]]),
         ("inbounds", Json.arr
           [Json.obj [("listen_port", Json.num 70000)],
            Json.obj [("listen_port", Json.num 443)],
            Json.obj [("listen_port", Json.num 0)]])]) = Except.ok
      ["Invalid port 70000 in inbound 0", "Invalid port 0 in inbound 2"]) ∧
    (validate_clash_semantics (Json.obj
        [("proxies", Json.arr [Json.obj [("name", Json.str "a")]]),
         ("proxy-groups", Json.arr
           [Json.obj [("name", Json.str "Proxy"),
                      ("proxies", Json.arr [Json.str "a", Json.str "x"])]])]) = Except.ok
      ["Proxy group \x27Proxy\x27 references undefined proxy \x27x\x27"]) := by
  refine ⟨?_, ?_, ?_⟩
  · exact C3_semantic_append_and_order.1 envStructFail _ "sing-box" _
      (Json.obj [("type", Json.str "object")]) _ rfl rfl rfl rfl
  · exact C3_semantic_append_and_order.2.1 _
      [Json.obj [("listen_port", Json.num 70000)],
       Json.obj [("listen_port", Json.num 443)],
       Json.obj [("listen_port", Json.num 0)]] rfl (by decide)
  · exact C3_semantic_append_and_order.2.2 _
      [Json.obj [("name", Json.str "a")]]
      [Json.obj [("name", Json.str "Proxy"),
                 ("proxies", Json.arr [Json.str "a", Json.str "x"])]]
      rfl rfl (by decide) (by decide)

theorem portPart_conclusions (pk missMsg : String) (b : Bool)
    (hmm : missMsg.data.headD ' ' ≠ 'I') (inbs : List Json) :
    ∀ (i : Nat) (hi : i < inbs.length) (p : Int),
      objLookup (inbs.get ⟨i, hi⟩) pk = some (Json.num p) →
      (((p < 1 ∨ 65535 < p) →
         portMsg (intRepr p) i ∈ (if b then [missMsg] else []) ++ portSpecFrom pk 0 inbs) ∧
       ((1 ≤ p ∧ p ≤ 65535) → ∀ q : String,
         portMsg q i ∉ (if b then [missMsg] else []) ++ portSpecFrom pk 0 inbs)) := by
  intro i hi p hp
  constructor
  · intro hout
    rw [List.mem_append]
    right
    have := portSpecFrom_mem_pos pk inbs 0 i p hi hp hout
    simpa using this
  · intro hin q hq
    rw [List.mem_append] at hq
    rcases hq with hq | hq
    · have hqm : portMsg q i = missMsg := by
        cases b with
        | true => simpa using hq
        | false => simp at hq
      apply hmm
      rw [← hqm]
      exact portMsg_headD q i
    · obtain ⟨j, hj, p2, hp2, hout2, heq⟩ := portSpecFrom_mem_shape pk inbs 0 _ hq
      have hij : i = 0 + j := portMsg_index_inj heq
      have hji2 : i = j := by omega
      subst hji2
      have hfin : (⟨i, hi⟩ : Fin inbs.length) = ⟨i, hj⟩ := rfl
      rw [hfin, hp2] at hp
      have hpp : p2 = p := by
        injection hp with h1
        injection h1
      omega

/-- C4: for sing-box (field listen_port) and xray (field port), on every
well-shaped config, an inbound whose port value lies outside [1, 65535]
contributes the port-range error naming its positional index and the value,
and an inbound whose port value lies inside [1, 65535] contributes no
port-range error naming its index, whatever the rest of the document. -/
theorem C4_port_range_errors :
    (∀ (fs : List (String × Json)) (inbs : List Json) (errs : List String),
       objLookup (Json.obj fs) "inbounds" = some (Json.arr inbs) →
       (∀ inb ∈ inbs, inbShapeOk "listen_port" inb = true) →
       validate_singbox_semantics (Json.obj fs) = Except.ok errs →
       ∀ (i : Nat) (hi : i < inbs.length) (p : Int),
         objLookup (inbs.get ⟨i, hi⟩) "listen_port" = some (Json.num p) →
         (((p < 1 ∨ 65535 < p) → portMsg (intRepr p) i ∈ errs) ∧
          ((1 ≤ p ∧ p ≤ 65535) → ∀ q : String, portMsg q i ∉ errs))) ∧
    (∀ (fs : List (String × Json)) (inbs : List Json) (errs : List String),
       objLookup (Json.obj fs) "inbounds" = some (Json.arr inbs) →
       (∀ inb ∈ inbs, inbShapeOk "port" inb = true) →
       validate_xray_semantics (Json.obj fs) = Except.ok errs →
       ∀ (i : Nat) (hi : i < inbs.length) (p : Int),
         objLookup (inbs.get ⟨i, hi⟩) "port" = some (Json.num p) →
         (((p < 1 ∨ 65535 < p) → portMsg (intRepr p) i ∈ errs) ∧
          ((1 ≤ p ∧ p ≤ 65535) → ∀ q : String, portMsg q i ∉ errs))) := by
  constructor
  · intro fs inbs errs hin hshape heq i hi p hp
    rw [validate_singbox_eq fs inbs hin hshape] at heq
    obtain rfl : _ = errs := by injection heq
    exact portPart_conclusions "listen_port"
      "sing-box configuration must have at least one outbound"
      (missingKeyFalsyPure "outbounds" fs) (by decide) inbs i hi p hp
  · intro fs inbs errs hin hshape heq i hi p hp
    rw [validate_xray_eq fs inbs hin hshape] at heq
    obtain rfl : _ = errs := by injection heq
    exact portPart_conclusions "port"
      "xray configuration must have at least one outbound"
      (missingKeyFalsyPure "outbounds" fs) (by decide) inbs i hi p hp

/-- C4 witness: both conjuncts applied at concrete configs: the out-of-range
inbound 0 (value 70000) is reported, the in-range inbound 1 (value 443) is
never reported, for sing-box and for xray alike. -/
theorem C4_witness :
    (portMsg (intRepr 70000) 0 ∈ ["Invalid port 70000 in inbound 0"] ∧
     (∀ q : String, portMsg q 1 ∉ ["Invalid port 70000 in inbound 0"])) ∧
    (portMsg (intRepr 99999) 0 ∈ ["Invalid port 99999 in inbound 0"] ∧
     (∀ q : String, portMsg q 1 ∉ ["Invalid port 99999 in inbound 0"])) := by
  constructor
  · have h := C4_port_range_errors.1
      [("outbounds", Json.arr [Json.obj [("tag", Json.str "x")]]),
       ("inbounds", Json.arr
         [Json.obj [("listen_port", Json.num 70000)],
          Json.obj [("listen_port", Json.num 443)]])]
      [Json.obj [("listen_port", Json.num 70000)], Json.obj [("listen_port", Json.num 443)]]
      ["Invalid port 70000 in inbound 0"] rfl (by decide) rfl
    exact ⟨(h 0 (by decide) 70000 rfl).1 (by omega),
           (h 1 (by decide) 443 rfl).2 (by omega)⟩
  · have h := C4_port_range_errors.2
      [("outbounds", Json.arr [Json.obj [("tag", Json.str "x")]]),
       ("inbounds", Json.arr
         [Json.obj [("port", Json.num 99999)],
          Json.obj [("port", Json.num 443)]])]
      [Json.obj [("port", Json.num 99999)], Json.obj [("port", Json.num 443)]]
      ["Invalid port 99999 in inbound 0"] rfl (by decide) rfl
    exact ⟨(h 0 (by decide) 99999 rfl).1 (by omega),
           (h 1 (by decide) 443 rfl).2 (by omega)⟩

/-- Whether the schema directory holds a readable, parseable and truthy
schema file matching the filename convention for `ct`. -/
def usableFileSchema (env : ValidatorEnv) (ct : String) : Bool :=
  match env.schemaFiles (hyphenToUnderscore ct ++ ".schema.json") with
  | some (Except.ok s) => truthy s
  | _ => false

/-- Environment with an empty schema index and a parseable truthy schema
file matching the filename convention of the unknown type `my-type`. -/
def envFileOnly : ValidatorEnv :=
  ⟨[],
   fun f => if f = "my_type.schema.json"
            then some (Except.ok (Json.obj [("type", Json.str "object")])) else none,
   fun _ => Except.error "e",
   fun _ _ => StructOutcome.ok⟩

/-- C6 counterexample: a client-type string outside the supported set whose
filename-convention schema file is present: schema resolution succeeds
through the file fallback and validate_config does not report "no schema
found" (here it even returns valid = true). -/
theorem C6_counterexample :
    ("my-type" ∉ ["sing-box", "clash", "xray", "mihomo"]) ∧
    validate_config envFileOnly (ConfigData.json (Json.obj [])) "my-type" =
      Except.ok ⟨true, [], [], "my-type"⟩ := by
  exact ⟨by decide, rfl⟩

/-- C6 (amended): for a client-type string outside the supported set, the
identifier mapping misses regardless of the preloaded index, so schema
resolution succeeds only through the filename-convention file; when no
usable (existing, parseable, truthy) such file is present, validate_config
returns valid = false with the "no schema found" error, for every document. -/
theorem C6_unknown_type_no_schema (env : ValidatorEnv) (ct : String) (j : Json)
    (hct : ct ∉ ["sing-box", "clash", "xray", "mihomo"])
    (hfile : usableFileSchema env ct = false) :
    validate_config env (ConfigData.json j) ct =
      Except.ok ⟨false, ["No schema found for client type: " ++ ct], [], ct⟩ := by
  have hmap : schema_mapping.find? (fun p => p.1 == ct) = none := by
    rw [List.find?_eq_none]
    intro x hx
    simp only [schema_mapping, List.mem_cons, List.not_mem_nil, or_false] at hx
    have hx1 : x.1 = "sing-box" ∨ x.1 = "clash" ∨ x.1 = "xray" ∨ x.1 = "mihomo" := by
      rcases hx with rfl | rfl | rfl | rfl
      · exact Or.inl rfl
      · exact Or.inr (Or.inl rfl)
      · exact Or.inr (Or.inr (Or.inl rfl))
      · exact Or.inr (Or.inr (Or.inr rfl))
    intro hbeq
    rw [beq_iff_eq] at hbeq
    apply hct
    rw [← hbeq]
    simp only [List.mem_cons, List.not_mem_nil, or_false]
    tauto
  cases hf : env.schemaFiles (hyphenToUnderscore ct ++ ".schema.json") with
  | none =>
    have hg : get_schema_for_client env ct = none := by
      simp [get_schema_for_client, hmap, hf]
    exact validate_config_no_schema ct rfl hg
  | some r =>
    cases r with
    | error m =>
      have hg : get_schema_for_client env ct = none := by
        simp [get_schema_for_client, hmap, hf]
      exact validate_config_no_schema ct rfl hg
    | ok s =>
      have hg : get_schema_for_client env ct = some s := by
        simp [get_schema_for_client, hmap, hf]
      have hts : truthy s = false := by
        unfold usableFileSchema at hfile
        rw [hf] at hfile
        exact hfile
      exact validate_config_falsy_schema ct rfl hg hts

/-- Environment with no schema index and no schema files at all. -/
def envEmpty : ValidatorEnv :=
  ⟨[], fun _ => none, fun _ => Except.error "e", fun _ _ => StructOutcome.ok⟩

/-- C6 witness: the amended claim applied to the unknown client type
`unknown-client` in an environment without schema files. -/
theorem C6_witness :
    validate_config envEmpty (ConfigData.json (Json.obj [])) "unknown-client" =
      Except.ok ⟨false, ["No schema found for client type: unknown-client"], [],
        "unknown-client"⟩ :=
  C6_unknown_type_no_schema envEmpty "unknown-client" (Json.obj []) (by decide) rfl

theorem excludedCount_none : excludedCount none = Except.ok 0 := rfl

theorem excludedCount_absent (fs : List (String × Json)) (e : Int)
    (h : excludedCount (some (Json.obj fs)) = Except.ok e)
    (habs : objLookup (Json.obj fs) "exclude_servers" = none) : e = 0 := by
  simp only [objLookup, Option.map_eq_none'] at habs
  have hany : (fs.any fun q => q.1 == "exclude_servers") = false := by
    rw [any_key_eq_isSome, habs]
    rfl
  simp only [excludedCount] at h
  by_cases ht : truthy (Json.obj fs)
  · rw [if_pos ht] at h
    simp only [pyIn, exceptBind_ok, hany] at h
    simp only [Bool.false_eq_true, if_false, exceptPure_eq_ok] at h
    injection h with h2
    omega
  · rw [if_neg ht] at h
    injection h with h2
    omega

theorem excludedCount_present (fs : List (String × Json)) (e : Int) (v : Json) (n : Int)
    (h : excludedCount (some (Json.obj fs)) = Except.ok e)
    (hv : objLookup (Json.obj fs) "exclude_servers" = some v)
    (hn : pyLen v = Except.ok n) : e = n := by
  simp only [objLookup, Option.map_eq_some'] at hv
  obtain ⟨r, hfind, hr2⟩ := hv
  have hany : (fs.any fun q => q.1 == "exclude_servers") = true := by
    rw [any_key_eq_isSome, hfind]
    rfl
  have ht : truthy (Json.obj fs) = true := by
    unfold truthy
    cases fs with
    | nil => simp at hfind
    | cons a t => rfl
  simp only [excludedCount] at h
  rw [if_pos ht] at h
  simp only [pyIn, exceptBind_ok, hany, if_true, getItem, hfind, hr2, exceptBind_ok, hn] at h
  injection h with h2
  omega

/-- C9: whenever the metadata-generation step returns a metadata document,
its subscription_info satisfies total_servers = filtered_servers +
excluded_servers, where filtered_servers is the length of the passed server
list and excluded_servers is the length of options["exclude_servers"] when
that key is present (0 when it is absent or options is None): total_servers
is always recomputed as this sum, never taken as an input. -/
theorem C9_metadata_totals (servers : List ParsedServer) (url : String)
    (options : Option Json) (md : Json)
    (h : generate_metadata servers url options = Except.ok md) :
    ∃ (info : Json) (t f e : Int),
      objLookup md "subscription_info" = some info ∧
      objLookup info "total_servers" = some (Json.num t) ∧
      objLookup info "filtered_servers" = some (Json.num f) ∧
      objLookup info "excluded_servers" = some (Json.num e) ∧
      t = f + e ∧ f = servers.length ∧
      (options = none → e = 0) ∧
      (∀ fs, options = some (Json.obj fs) →
        (objLookup (Json.obj fs) "exclude_servers" = none → e = 0) ∧
        (∀ v n, objLookup (Json.obj fs) "exclude_servers" = some v →
          pyLen v = Except.ok n → e = n)) := by
  unfold generate_metadata at h
  cases hec : excludedCount options with
  | error err => rw [hec] at h; exact absurd h (by simp)
  | ok ec =>
    rw [hec] at h
    simp only [exceptBind_ok, exceptPure_eq_ok, exceptMap_ok] at h
    obtain rfl : _ = md := by injection h
    refine ⟨_, servers.length + ec, servers.length, ec, rfl, rfl, rfl, rfl, rfl, rfl, ?_, ?_⟩
    · rintro rfl
      rw [excludedCount_none] at hec
      injection hec with h2
      omega
    · rintro fs rfl
      exact ⟨fun habs => excludedCount_absent fs ec hec habs,
             fun v n hv hn => excludedCount_present fs ec v n hec hv hn⟩

/-- Concrete options dict with a two-entry exclude list. -/
def excludeOpts : Json :=
  Json.obj [("exclude_servers", Json.arr [Json.str "a", Json.str "b"])]

/-- C9 witness: the totals equation at a concrete server list and a
two-entry exclude list: total 3 = filtered 1 + excluded 2. -/
theorem C9_witness :
    ∃ (info : Json) (t f e : Int),
      objLookup (Json.obj
        [("source", Json.str "https://x"),
         ("generator", Json.str "sboxmgr-1.5.0"),
         ("checksum", Json.str ""),
         ("subscription_info", Json.obj
           [("total_servers", Json.num 3),
            ("filtered_servers", Json.num 1),
            ("excluded_servers", Json.num 2)])]) "subscription_info" = some info ∧
      objLookup info "total_servers" = some (Json.num t) ∧
      objLookup info "filtered_servers" = some (Json.num f) ∧
      objLookup info "excluded_servers" = some (Json.num e) ∧
      t = f + e ∧ f = 1 ∧ (some excludeOpts = none → e = 0) ∧
      (∀ fs, some excludeOpts = some (Json.obj fs) →
        (objLookup (Json.obj fs) "exclude_servers" = none → e = 0) ∧
        (∀ v n, objLookup (Json.obj fs) "exclude_servers" = some v →
          pyLen v = Except.ok n → e = n)) := by
  have h := C9_metadata_totals
    [⟨"s1", "vmess", "h", 443, "u", "auto", "", 0, true, "ws"⟩]
    "https://x" (some excludeOpts)
    (Json.obj
      [("source", Json.str "https://x"),
       ("generator", Json.str "sboxmgr-1.5.0"),
       ("checksum", Json.str ""),
       ("subscription_info", Json.obj
         [("total_servers", Json.num 3),
          ("filtered_servers", Json.num 1),
          ("excluded_servers", Json.num 2)])]) rfl
  simpa using h

theorem convert_shape (s : ParsedServer) (nm : String) (p : Json)
    (h : convert_to_clash_proxy s nm = some p) :
    ∃ rest, p = Json.obj (("name", Json.str nm) :: rest) := by
  unfold convert_to_clash_proxy at h
  split_ifs at h
  · injection h with h2
    exact ⟨_, h2.symm⟩
  · injection h with h2
    exact ⟨_, h2.symm⟩
  · injection h with h2
    exact ⟨_, h2.symm⟩

theorem clashProxiesFrom_shape :
    ∀ (ss : List ParsedServer) (i : Nat) (p : Json), p ∈ clashProxiesFrom i ss →
      ∃ nm rest, p = Json.obj (("name", Json.str nm) :: rest) := by
  intro ss
  induction ss with
  | nil => intro i p hp; simp [clashProxiesFrom] at hp
  | cons s t ih =>
    intro i p hp
    rw [clashProxiesFrom] at hp
    cases hc : convert_to_clash_proxy s ("server-" ++ natRepr i) with
    | none =>
      rw [hc] at hp
      exact ih (i + 1) p hp
    | some q =>
      rw [hc] at hp
      rcases List.mem_cons.mp hp with rfl | hp2
      · obtain ⟨rest, hrest⟩ := convert_shape s _ p hc
        exact ⟨_, rest, hrest⟩
      · exact ih (i + 1) p hp2

theorem clashProxies_hasName (servers : List ParsedServer) :
    ∀ p ∈ clashProxies servers, hasNameOk p = true := by
  intro p hp
  obtain ⟨nm, rest, rfl⟩ := clashProxiesFrom_shape servers 0 p hp
  rfl

theorem missingKeyFalsyPure_of_lookup {k : String} {fs : List (String × Json)} {v : Json}
    (h : objLookup (Json.obj fs) k = some v) :
    missingKeyFalsyPure k fs = !truthy v := by
  simp only [objLookup] at h
  unfold missingKeyFalsyPure
  rw [h]

/-- The rule list of the generated clash configuration. -/
def clashRules : Json :=
  Json.arr [Json.str "DOMAIN-SUFFIX,google.com,Proxy", Json.str "GEOIP,CN,DIRECT",
            Json.str "MATCH,Proxy"]

/-- The single proxy group of the generated clash configuration. -/
def clashGroup (servers : List ParsedServer) : Json :=
  Json.obj [("name", Json.str "Proxy"), ("type", Json.str "select"),
            ("proxies", Json.arr ((clashProxies servers).map proxyNameVal))]

theorem generate_clash_config_eq (servers : List ParsedServer) (opts : Option Json) :
    generate_clash_config servers opts = Json.obj
      [("port", Json.num 7890), ("socks-port", Json.num 7891),
       ("mode", Json.str "rule"), ("log-level", Json.str "info"),
       ("external-controller", Json.str "127.0.0.1:9090"),
       ("proxies", Json.arr (clashProxies servers)),
       ("proxy-groups", Json.arr
         (if (clashProxies servers).isEmpty then [] else [clashGroup servers])),
       ("rules", clashRules)] := rfl

/-- C10: the generated clash (and mihomo) configuration carries at most one
proxy-group, its member list is exactly the names of the generated proxies,
and running the clash proxy-group reference check on a freshly generated
configuration never produces an undefined-proxy error: the semantic result
is empty when at least one proxy was generated, and consists solely of the
missing-proxies message otherwise. -/
theorem C10_generated_clash_config_consistent (servers : List ParsedServer)
    (opts : Option Json) :
    ∃ gs : List Json,
      objLookup (generate_clash_config servers opts) "proxy-groups" = some (Json.arr gs) ∧
      gs.length ≤ 1 ∧
      (∀ g ∈ gs, objLookup g "proxies" =
        some (Json.arr ((clashProxies servers).map proxyNameVal))) ∧
      validate_clash_semantics (generate_clash_config servers opts) =
        Except.ok (if (clashProxies servers).isEmpty
                   then ["clash configuration must have at least one proxy"] else []) ∧
      (∀ l, validate_clash_semantics (generate_clash_config servers opts) = Except.ok l →
        ∀ e ∈ l, ∀ a b : Json, e ≠ undefMsg a b) := by
  cases hps : (clashProxies servers).isEmpty with
  | true =>
    have hnil : clashProxies servers = [] := List.isEmpty_iff.mp hps
    have hsem : validate_clash_semantics (generate_clash_config servers opts) =
        Except.ok ["clash configuration must have at least one proxy"] := by
      rw [generate_clash_config_eq, hnil]
      rw [validate_clash_eq _ [] [] (by rfl) (by rfl) (by simp) (by simp)]
      rfl
    refine ⟨[], ?_, by simp, by simp, ?_, ?_⟩
    · rw [generate_clash_config_eq, hnil]
      rfl
    · rw [hsem]
      rfl
    · intro l hl e he a b
      rw [hsem] at hl
      obtain rfl : ["clash configuration must have at least one proxy"] = l := by injection hl
      simp only [List.mem_singleton] at he
      subst he
      intro hh
      exact undefMsg_ne_clash_missing a b hh.symm
  | false =>
    have htr : truthy (Json.arr (clashProxies servers)) = true := by
      simp only [truthy, hps]
      rfl
    have hmiss : missingKeyFalsyPure "proxies"
        [("port", Json.num 7890), ("socks-port", Json.num 7891),
         ("mode", Json.str "rule"), ("log-level", Json.str "info"),
         ("external-controller", Json.str "127.0.0.1:9090"),
         ("proxies", Json.arr (clashProxies servers)),
         ("proxy-groups", Json.arr [clashGroup servers]),
         ("rules", clashRules)] = false := by
      rw [missingKeyFalsyPure_of_lookup (v := Json.arr (clashProxies servers)) (by rfl), htr]
      rfl
    have hspec : groupsSpec ((clashProxies servers).map proxyNameVal)
        [clashGroup servers] = [] := by
      unfold groupsSpec groupSpec
      simp only [List.flatMap_cons, List.flatMap_nil, List.append_nil]
      rw [List.filterMap_eq_nil_iff]
      intro m hm
      have hmem : m ∈ (clashProxies servers).map proxyNameVal := by
        simpa [clashGroup, groupMembers, objLookup] using hm
      rw [if_pos hmem]
    have hsem : validate_clash_semantics (generate_clash_config servers opts) =
        Except.ok [] := by
      rw [generate_clash_config_eq]
      rw [hps]
      rw [show (if false = true then ([] : List Json) else [clashGroup servers]) =
          [clashGroup servers] from rfl]
      rw [validate_clash_eq _ (clashProxies servers) [clashGroup servers]
        (by rfl) (by rfl) (clashProxies_hasName servers) ?gshape]
      case gshape =>
        intro g hg
        simp only [List.mem_singleton] at hg
        subst hg
        rfl
      rw [hmiss, hspec]
      rfl
    refine ⟨[clashGroup servers], ?_, by simp, ?_, ?_, ?_⟩
    · rw [generate_clash_config_eq, hps]
      rfl
    · intro g hg
      simp only [List.mem_singleton] at hg
      subst hg
      rfl
    · rw [hsem]
      rfl
    · intro l hl e he a b
      rw [hsem] at hl
      obtain rfl : ([] : List String) = l := by injection hl
      simp at he
